import Mathlib

/-!
Shallow embedding of the openbot multi-instance orchestration core
(src/orchestration: worker-registry.ts, task-router.ts, orchestrator.ts,
the circuit breaker of http-server.ts, and the exponential backoff of
task-router.ts), together with theorems settling the frozen claims about
its specification.

Modelling conventions:
* JS `Map`s are insertion-ordered association lists; `Map.set` updates the
  first occurrence in place (or appends), `Map.delete` removes it — JS maps
  never hold duplicate keys, which matches these operations from the empty map.
* Timestamps (`Date.now()`) are threaded as explicit `Nat` parameters.
* `Math.random()` draws are threaded as explicit parameters (a `Nat` index
  draw for the random routing strategy, a rational for backoff jitter).
* JS numbers holding counts, loads and delays are `Nat`/`Int`; JS divisions
  (load fractions, failure rates) are carried out in `ℚ`.
* Opaquely-typed JS values (`payload: unknown`, `metadata`) are `String`
  stand-ins: the core never inspects them.
-/

namespace Openbot

/-! ### Association-list model of JS `Map` (insertion ordered) -/

def mapFind {β : Type} (l : List (String × β)) (k : String) : Option β :=
  match l with
  | [] => none
  | (k1, v) :: rest => if k1 = k then some v else mapFind rest k

def mapSet {β : Type} (l : List (String × β)) (k : String) (v : β) : List (String × β) :=
  match l with
  | [] => [(k, v)]
  | (k1, v1) :: rest => if k1 = k then (k, v) :: rest else (k1, v1) :: mapSet rest k v

def mapErase {β : Type} (l : List (String × β)) (k : String) : List (String × β) :=
  match l with
  | [] => []
  | (k1, v1) :: rest => if k1 = k then rest else (k1, v1) :: mapErase rest k

def mapKeys {β : Type} (l : List (String × β)) : List String :=
  l.map Prod.fst

/-! ### orchestration/types.ts -/

inductive WorkerStatus
  | online
  | busy
  | degraded
  | offline
deriving DecidableEq, Repr

structure WorkerInfo where
  id : String
  name : String
  endpoint : String
  status : WorkerStatus
  lastHeartbeat : Nat
  capabilities : List String
  currentLoad : Int
  maxLoad : Int
  metadata : Option String
deriving DecidableEq, Repr

inductive TaskPriority
  | low
  | normal
  | high
  | critical
deriving DecidableEq, Repr

inductive TaskStatus
  | pending
  | assigned
  | running
  | completed
  | failed
  | timeout
deriving DecidableEq, Repr

structure Task where
  id : String
  type : String
  payload : String
  priority : TaskPriority
  status : TaskStatus
  createdAt : Nat
  assignedTo : Option String
  assignedAt : Option Nat
  completedAt : Option Nat
  result : Option String
  error : Option String
  retries : Nat
  maxRetries : Nat
  timeoutMs : Nat
deriving DecidableEq, Repr

structure TaskResult where
  taskId : String
  workerId : String
  success : Bool
  result : Option String
  error : Option String
  durationMs : Nat
deriving DecidableEq, Repr

inductive RoutingStrategy
  | roundRobin
  | leastLoaded
  | capabilityMatch
  | random
deriving DecidableEq, Repr

structure HeartbeatPayload where
  workerId : String
  status : WorkerStatus
  currentLoad : Int
  maxLoad : Int
  capabilities : List String
deriving DecidableEq, Repr

structure TaskAssignment where
  task : Task
  workerId : String
deriving DecidableEq, Repr

/-! ### orchestration/worker-registry.ts -/

structure WorkerRegistryOptions where
  heartbeatIntervalMs : Nat
  missedHeartbeatsThreshold : Nat
deriving DecidableEq, Repr

structure WorkerRegistry where
  workers : List (String × WorkerInfo)
  options : WorkerRegistryOptions
deriving DecidableEq, Repr

/-- The registration payload, `Omit<WorkerInfo, "lastHeartbeat" | "status">`. -/
structure WorkerDescriptor where
  id : String
  name : String
  endpoint : String
  capabilities : List String
  currentLoad : Int
  maxLoad : Int
  metadata : Option String
deriving DecidableEq, Repr

/-- The `WorkerInfo` built from a descriptor with `status: "online"` and
`lastHeartbeat: Date.now()`. In the re-register branch the source computes
`{...existing, ...worker, status: "online", lastHeartbeat: now}`: every field
of the existing record is overridden, so both branches store this record. -/
def WorkerDescriptor.assemble (w : WorkerDescriptor) (now : Nat) : WorkerInfo :=
  { id := w.id, name := w.name, endpoint := w.endpoint, status := .online,
    lastHeartbeat := now, capabilities := w.capabilities,
    currentLoad := w.currentLoad, maxLoad := w.maxLoad, metadata := w.metadata }

def WorkerRegistry.register (reg : WorkerRegistry) (w : WorkerDescriptor) (now : Nat) :
    WorkerRegistry × WorkerInfo :=
  match mapFind reg.workers w.id with
  | some _ =>
      -- updateWorker(worker.id, { ...worker, status: "online", lastHeartbeat: now })
      ({ reg with workers := mapSet reg.workers w.id (w.assemble now) }, w.assemble now)
  | none =>
      ({ reg with workers := mapSet reg.workers w.id (w.assemble now) }, w.assemble now)

def WorkerRegistry.unregister (reg : WorkerRegistry) (workerId : String) :
    WorkerRegistry × Bool :=
  match mapFind reg.workers workerId with
  | some _ => ({ reg with workers := mapErase reg.workers workerId }, true)
  | none => (reg, false)

def WorkerRegistry.heartbeat (reg : WorkerRegistry) (p : HeartbeatPayload) (now : Nat) :
    WorkerRegistry × Option WorkerInfo :=
  match mapFind reg.workers p.workerId with
  | none => (reg, none)
  | some w =>
      let updated : WorkerInfo :=
        { w with status := p.status, currentLoad := p.currentLoad, maxLoad := p.maxLoad,
                 capabilities := p.capabilities, lastHeartbeat := now }
      ({ reg with workers := mapSet reg.workers p.workerId updated }, some updated)

def WorkerRegistry.checkWorkerHealth (reg : WorkerRegistry) (now : Nat) : WorkerRegistry :=
  let maxAge := reg.options.heartbeatIntervalMs * reg.options.missedHeartbeatsThreshold
  { reg with
    workers := reg.workers.map (fun kw =>
      if kw.2.status ≠ .offline ∧ (now : ℤ) - kw.2.lastHeartbeat > (maxAge : ℤ)
      then (kw.1, { kw.2 with status := .offline })
      else kw) }

def WorkerRegistry.get (reg : WorkerRegistry) (workerId : String) : Option WorkerInfo :=
  mapFind reg.workers workerId

def WorkerRegistry.getAll (reg : WorkerRegistry) : List WorkerInfo :=
  reg.workers.map Prod.snd

def WorkerRegistry.getByStatus (reg : WorkerRegistry) (status : WorkerStatus) :
    List WorkerInfo :=
  reg.getAll.filter (fun w => w.status == status)

def WorkerRegistry.getAvailable (reg : WorkerRegistry) : List WorkerInfo :=
  reg.getAll.filter (fun w =>
    (w.status == .online || w.status == .busy) && w.currentLoad < w.maxLoad)

def WorkerRegistry.getByCapability (reg : WorkerRegistry) (capability : String) :
    List WorkerInfo :=
  reg.getAll.filter (fun w => w.capabilities.contains capability && w.status == .online)

structure RegistryStats where
  total : Nat
  online : Nat
  busy : Nat
  degraded : Nat
  offline : Nat
  totalCapacity : Int
  currentLoad : Int
deriving DecidableEq, Repr

def WorkerRegistry.stats (reg : WorkerRegistry) : RegistryStats :=
  let workers := reg.getAll
  { total := workers.length,
    online := (workers.filter (fun w => w.status == .online)).length,
    busy := (workers.filter (fun w => w.status == .busy)).length,
    degraded := (workers.filter (fun w => w.status == .degraded)).length,
    offline := (workers.filter (fun w => w.status == .offline)).length,
    totalCapacity := workers.foldl (fun sum w => sum + w.maxLoad) 0,
    currentLoad := workers.foldl (fun sum w => sum + w.currentLoad) 0 }

/-! ### orchestration/task-router.ts -/

structure TaskRouter where
  strategy : RoutingStrategy
  roundRobinIndex : Nat
deriving DecidableEq, Repr

/-- The quantity `currentLoad / maxLoad` as computed by `selectLeastLoaded`
(JS division, carried out in `ℚ`). -/
def loadFraction (w : WorkerInfo) : ℚ :=
  (w.currentLoad : ℚ) / (w.maxLoad : ℚ)

def TaskRouter.getEligibleWorkers (task : Task) (reg : WorkerRegistry) : List WorkerInfo :=
  let workers := reg.getAvailable
  -- `if (task.type)`: the empty string is falsy in JS
  if task.type ≠ "" then
    let capableWorkers := workers.filter (fun w =>
      w.capabilities.length == 0 || w.capabilities.contains task.type)
    if capableWorkers.length > 0 then capableWorkers else workers
  else workers

def selectLeastLoadedAux (best : WorkerInfo) : List WorkerInfo → WorkerInfo
  | [] => best
  | w :: ws =>
      selectLeastLoadedAux (if loadFraction w < loadFraction best then w else best) ws

/-- Source: `workers.reduce(...)`; JS `reduce` without seed throws on an empty array;
callers guard with a length check, so the empty case yields `none`. -/
def TaskRouter.selectLeastLoaded : List WorkerInfo → Option WorkerInfo
  | [] => none
  | w :: ws => some (selectLeastLoadedAux w ws)

def TaskRouter.selectByCapability (workers : List WorkerInfo) (task : Task) :
    Option WorkerInfo :=
  let exactMatch := workers.filter (fun w => w.capabilities.contains task.type)
  if exactMatch.length > 0 then TaskRouter.selectLeastLoaded exactMatch
  else TaskRouter.selectLeastLoaded workers

def TaskRouter.selectRoundRobin (router : TaskRouter) (workers : List WorkerInfo) :
    Option (WorkerInfo × TaskRouter) :=
  match workers with
  | [] => none
  | w :: ws =>
      let n := (w :: ws).length
      some ((w :: ws).getD (router.roundRobinIndex % n) w,
            { router with roundRobinIndex := (router.roundRobinIndex + 1) % n })

/-- Source: `Math.floor(Math.random() * workers.length)` ranges over `[0, length)`;
the draw is modelled by an external `rand : Nat` taken modulo the length. -/
def TaskRouter.selectRandom (rand : Nat) (workers : List WorkerInfo) : Option WorkerInfo :=
  match workers with
  | [] => none
  | w :: ws => some ((w :: ws).getD (rand % (w :: ws).length) w)

def TaskRouter.selectWorker (router : TaskRouter) (workers : List WorkerInfo) (task : Task)
    (rand : Nat) : Option WorkerInfo × TaskRouter :=
  match workers with
  | [] => (none, router)
  | _ :: _ =>
      match router.strategy with
      | .roundRobin =>
          match router.selectRoundRobin workers with
          | some (w, router1) => (some w, router1)
          | none => (none, router)
      | .leastLoaded => (TaskRouter.selectLeastLoaded workers, router)
      | .capabilityMatch => (TaskRouter.selectByCapability workers task, router)
      | .random => (TaskRouter.selectRandom rand workers, router)

def TaskRouter.route (router : TaskRouter) (task : Task) (reg : WorkerRegistry)
    (rand : Nat) : Option TaskAssignment × TaskRouter :=
  let workers := TaskRouter.getEligibleWorkers task reg
  if workers.length == 0 then (none, router)
  else
    match router.selectWorker workers task rand with
    | (some w, router1) => (some { task := task, workerId := w.id }, router1)
    | (none, router1) => (none, router1)

/-! ### ExponentialBackoff (task-router.ts, backoff section) -/

structure BackoffOptions where
  baseDelayMs : Nat
  maxDelayMs : Nat
  jitter : ℚ
  maxAttempts : Nat
deriving DecidableEq, Repr

/-- Source: `calculateDelay(attempt)`; the `Math.random()` draw is the explicit
`rand` parameter, and `Math.round(x)` is `⌊x + 1/2⌋ = round x` on `ℚ`. -/
def ExponentialBackoff.calculateDelay (opts : BackoffOptions) (attempt : Nat)
    (rand : ℚ) : ℤ :=
  let exponentialDelay : Nat := opts.baseDelayMs * 2 ^ attempt
  let cappedDelay : Nat := min exponentialDelay opts.maxDelayMs
  let jitterRange : ℚ := (cappedDelay : ℚ) * opts.jitter
  let jitterOffset : ℚ := (rand * 2 - 1) * jitterRange
  round ((cappedDelay : ℚ) + jitterOffset)

/-! ### CircuitBreaker (http-server.ts) -/

inductive CircuitState
  | closed
  | open_
  | halfOpen
deriving DecidableEq, Repr

structure RequestRecord where
  timestamp : Nat
  success : Bool
deriving DecidableEq, Repr

structure CircuitBreaker where
  state : CircuitState
  records : List RequestRecord
  lastFailure : Nat
  halfOpenSuccesses : Nat
  failureThreshold : ℚ
  minimumRequests : Nat
  windowMs : Nat
  cooldownMs : Nat
  successThreshold : Nat
deriving DecidableEq, Repr

def CircuitBreaker.pruneOldRecords (cb : CircuitBreaker) (now : Nat) : CircuitBreaker :=
  -- cutoff = Date.now() - windowMs; keep records with timestamp >= cutoff
  { cb with records := cb.records.filter (fun r =>
      (r.timestamp : ℤ) ≥ (now : ℤ) - (cb.windowMs : ℤ)) }

def CircuitBreaker.transitionTo (cb : CircuitBreaker) (newState : CircuitState) :
    CircuitBreaker :=
  if cb.state = newState then cb
  else
    let cb1 := { cb with state := newState }
    let cb2 := if newState = .halfOpen then { cb1 with halfOpenSuccesses := 0 } else cb1
    if newState = .closed then { cb2 with records := [] } else cb2

def failureRateOf (records : List RequestRecord) : ℚ :=
  if records.length = 0 then 0
  else ((records.filter (fun r => !r.success)).length : ℚ) / (records.length : ℚ)

def CircuitBreaker.getFailureRate (cb : CircuitBreaker) (now : Nat) :
    CircuitBreaker × ℚ :=
  let cb1 := cb.pruneOldRecords now
  (cb1, failureRateOf cb1.records)

def CircuitBreaker.evaluateState (cb : CircuitBreaker) (now : Nat) : CircuitBreaker :=
  -- the length guard runs on the records *before* getFailureRate prunes them
  if cb.records.length < cb.minimumRequests then cb
  else
    let (cb1, failureRate) := cb.getFailureRate now
    if failureRate ≥ cb1.failureThreshold then cb1.transitionTo .open_ else cb1

def CircuitBreaker.canExecute (cb : CircuitBreaker) (now : Nat) :
    CircuitBreaker × Bool :=
  let cb1 := cb.pruneOldRecords now
  match cb1.state with
  | .closed => (cb1, true)
  | .open_ =>
      if (now : ℤ) - (cb1.lastFailure : ℤ) ≥ (cb1.cooldownMs : ℤ)
      then (cb1.transitionTo .halfOpen, true)
      else (cb1, false)
  | .halfOpen => (cb1, true)

def CircuitBreaker.recordSuccess (cb : CircuitBreaker) (now : Nat) : CircuitBreaker :=
  let cb1 := { cb with records := cb.records ++ [⟨now, true⟩] }
  if cb1.state = .halfOpen then
    let cb2 := { cb1 with halfOpenSuccesses := cb1.halfOpenSuccesses + 1 }
    if cb2.halfOpenSuccesses ≥ cb2.successThreshold then cb2.transitionTo .closed else cb2
  else cb1

def CircuitBreaker.recordFailure (cb : CircuitBreaker) (now : Nat) : CircuitBreaker :=
  let cb1 := { cb with records := cb.records ++ [⟨now, false⟩], lastFailure := now }
  if cb1.state = .halfOpen then cb1.transitionTo .open_
  else if cb1.state = .closed then cb1.evaluateState now
  else cb1

/-! ### orchestration/orchestrator.ts -/

structure OrchestratorConfig where
  routingStrategy : RoutingStrategy
  heartbeatIntervalMs : Nat
  missedHeartbeatsThreshold : Nat
  defaultTaskTimeoutMs : Nat
  defaultMaxRetries : Nat
  maxQueueSize : Nat
deriving DecidableEq, Repr

structure TaskSubmission where
  type : String
  payload : String
  priority : Option TaskPriority
  timeoutMs : Option Nat
  maxRetries : Option Nat
deriving DecidableEq, Repr

inductive OrchEvent
  | taskAssigned (task : Task) (workerId : String)
  | taskCompleted (result : TaskResult)
  | taskFailed (task : Task) (error : String)
  | workerOnline (worker : WorkerInfo)
  | workerOffline (worker : WorkerInfo)
deriving DecidableEq, Repr

structure Orchestrator where
  config : OrchestratorConfig
  registry : WorkerRegistry
  router : TaskRouter
  taskQueue : List Task
  activeTasks : List (String × Task)
  taskResults : List (String × TaskResult)
deriving DecidableEq, Repr

def priorityOrder : TaskPriority → Nat
  | .critical => 0
  | .high => 1
  | .normal => 2
  | .low => 3

/-- Walk from the head and insert before the first existing entry whose
priority rank is strictly greater (source: index scan plus `splice`). -/
def insertByPriority (queue : List Task) (task : Task) : List Task :=
  match queue with
  | [] => [task]
  | t :: ts =>
      if priorityOrder task.priority < priorityOrder t.priority then task :: t :: ts
      else t :: insertByPriority ts task

/-- The task record minted by `submitTask`. -/
def Orchestrator.mintTask (o : Orchestrator) (s : TaskSubmission) (freshId : String)
    (now : Nat) : Task :=
  { id := freshId, type := s.type, payload := s.payload,
    priority := s.priority.getD .normal, status := .pending, createdAt := now,
    assignedTo := none, assignedAt := none, completedAt := none, result := none,
    error := none, retries := 0,
    maxRetries := s.maxRetries.getD o.config.defaultMaxRetries,
    timeoutMs := s.timeoutMs.getD o.config.defaultTaskTimeoutMs }

/-- Source: `submitTask`; the fresh `randomUUID()` and `Date.now()` are explicit
parameters; a full queue throws, modelled as `none` with the state unchanged. -/
def Orchestrator.submitTask (o : Orchestrator) (s : TaskSubmission) (freshId : String)
    (now : Nat) : Orchestrator × Option Task :=
  if o.taskQueue.length ≥ o.config.maxQueueSize then (o, none)
  else
    ({ o with taskQueue := insertByPriority o.taskQueue (o.mintTask s freshId now) },
     some (o.mintTask s freshId now))

/-- The shape a task takes when it is re-queued for retry (`task.retries++`,
`status := pending`, cleared assignment). -/
def retriedTask (t : Task) : Task :=
  { t with retries := t.retries + 1, status := .pending,
           assignedTo := none, assignedAt := none }

/-- The shape a task takes when it is marked terminally failed. -/
def failedTaskOf (t : Task) (result : TaskResult) (now : Nat) : Task :=
  { t with status := .failed, completedAt := some now, error := result.error }

def Orchestrator.reportTaskResult (o : Orchestrator) (result : TaskResult) (now : Nat) :
    Orchestrator × List OrchEvent :=
  match mapFind o.activeTasks result.taskId with
  | none => (o, [])
  | some task =>
      -- the result is stored before the success/retry decision
      let o1 := { o with activeTasks := mapErase o.activeTasks result.taskId,
                         taskResults := mapSet o.taskResults result.taskId result }
      if result.success then
        (o1, [.taskCompleted result])
      else if task.retries < task.maxRetries then
        ({ o1 with taskQueue := insertByPriority o1.taskQueue (retriedTask task) }, [])
      else
        (o1, [.taskFailed (failedTaskOf task result now)
                (result.error.getD "Unknown error")])

def Orchestrator.getTask (o : Orchestrator) (taskId : String) : Option Task :=
  match mapFind o.activeTasks taskId with
  | some t => some t
  | none => o.taskQueue.find? (fun t => t.id == taskId)

def Orchestrator.getTaskResult (o : Orchestrator) (taskId : String) : Option TaskResult :=
  mapFind o.taskResults taskId

structure TaskStats where
  queued : Nat
  active : Nat
  completed : Nat
  failed : Nat
deriving DecidableEq, Repr

structure OrchStats where
  workers : RegistryStats
  tasks : TaskStats
deriving DecidableEq, Repr

/-- Source: `stats()`; the `completed` and `failed` buckets come from a reduce over
`this.taskQueue` keyed by task status. -/
def Orchestrator.stats (o : Orchestrator) : OrchStats :=
  { workers := o.registry.stats,
    tasks :=
      { queued := o.taskQueue.length,
        active := o.activeTasks.length,
        completed := (o.taskQueue.filter (fun t => t.status == .completed)).length,
        failed := (o.taskQueue.filter (fun t => t.status == .failed)).length } }

/-- The `TaskResult` the timeout sweep synthesizes for an overdue active entry. -/
def timeoutResultFor (k : String) (t : Task) (a now : Nat) : TaskResult :=
  { taskId := k, workerId := t.assignedTo.getD "unknown", success := false,
    result := none, error := some "Task timed out", durationMs := now - a }

/-- One entry of the timeout sweep:
`if (task.assignedAt && now - task.assignedAt > task.timeoutMs)` — note that an
`assignedAt` of 0 is falsy in JS — report a synthetic timeout failure. -/
def timeoutStep (now : Nat) (taskId : String) (task : Task) (o : Orchestrator) :
    Orchestrator × List OrchEvent :=
  match task.assignedAt with
  | some a =>
      if a ≠ 0 ∧ now - a > task.timeoutMs then
        o.reportTaskResult (timeoutResultFor taskId task a now) now
      else (o, [])
  | none => (o, [])

/-- The timeout sweep: iterate the active-task entries; JS `Map` iteration is
live, but `reportTaskResult` only deletes the entry being visited, so folding
over the snapshot list is equivalent. -/
def checkTimeoutsAux (now : Nat) :
    List (String × Task) → Orchestrator → Orchestrator × List OrchEvent
  | [], o => (o, [])
  | (taskId, task) :: rest, o =>
      let step := timeoutStep now taskId task o
      let next := checkTimeoutsAux now rest step.1
      (next.1, step.2 ++ next.2)

def Orchestrator.checkTimeouts (o : Orchestrator) (now : Nat) :
    Orchestrator × List OrchEvent :=
  checkTimeoutsAux now o.activeTasks o

/-- The assignment loop over the pending snapshot; one `rand` draw is consumed
per routing call. -/
def assignLoop (now : Nat) :
    List Task → List Nat → Orchestrator → Orchestrator × List OrchEvent
  | [], _, o => (o, [])
  | task :: rest, rands, o =>
      match o.router.route task o.registry (rands.headD 0) with
      | (some assignment, router1) =>
          let task1 := { task with status := .assigned,
                                   assignedTo := some assignment.workerId,
                                   assignedAt := some now }
          let o1 := { o with router := router1,
                             taskQueue := o.taskQueue.erase task,
                             activeTasks := mapSet o.activeTasks task.id task1 }
          let next := assignLoop now rest (rands.drop 1) o1
          (next.1, .taskAssigned task1 assignment.workerId :: next.2)
      | (none, router1) =>
          assignLoop now rest (rands.drop 1) { o with router := router1 }

def Orchestrator.processQueue (o : Orchestrator) (now : Nat) (rands : List Nat) :
    Orchestrator × List OrchEvent :=
  let swept := o.checkTimeouts now
  let pendingTasks := swept.1.taskQueue.filter (fun t => t.status == .pending)
  let assigned := assignLoop now pendingTasks rands swept.1
  (assigned.1, swept.2 ++ assigned.2)

def Orchestrator.registerWorker (o : Orchestrator) (d : WorkerDescriptor) (now : Nat) :
    Orchestrator × WorkerInfo × List OrchEvent :=
  let result := o.registry.register d now
  ({ o with registry := result.1 }, result.2, [.workerOnline result.2])

def Orchestrator.unregisterWorker (o : Orchestrator) (workerId : String) :
    Orchestrator × Bool × List OrchEvent :=
  let worker := o.registry.get workerId
  let result := o.registry.unregister workerId
  ({ o with registry := result.1 }, result.2,
   match worker, result.2 with
   | some w, true => [.workerOffline w]
   | _, _ => [])

def Orchestrator.heartbeat (o : Orchestrator) (p : HeartbeatPayload) (now : Nat) :
    Orchestrator × Option WorkerInfo :=
  let result := o.registry.heartbeat p now
  ({ o with registry := result.1 }, result.2)

/-! ### Operation traces -/

inductive OrchOp
  | submit (s : TaskSubmission) (freshId : String) (now : Nat)
  | report (result : TaskResult) (now : Nat)
  | tick (now : Nat) (rands : List Nat)
  | registerOp (d : WorkerDescriptor) (now : Nat)
  | unregisterOp (workerId : String)
  | heartbeatOp (p : HeartbeatPayload) (now : Nat)
deriving Repr

def Orchestrator.step (o : Orchestrator) : OrchOp → Orchestrator
  | .submit s freshId now => (o.submitTask s freshId now).1
  | .report result now => (o.reportTaskResult result now).1
  | .tick now rands => (o.processQueue now rands).1
  | .registerOp d now => (o.registerWorker d now).1
  | .unregisterOp workerId => (o.unregisterWorker workerId).1
  | .heartbeatOp p now => (o.heartbeat p now).1

def Orchestrator.init (cfg : OrchestratorConfig) : Orchestrator :=
  { config := cfg,
    registry := { workers := [],
                  options := { heartbeatIntervalMs := cfg.heartbeatIntervalMs,
                               missedHeartbeatsThreshold := cfg.missedHeartbeatsThreshold } },
    router := { strategy := cfg.routingStrategy, roundRobinIndex := 0 },
    taskQueue := [], activeTasks := [], taskResults := [] }

def Orchestrator.allTaskIds (o : Orchestrator) : List String :=
  o.taskQueue.map Task.id ++ mapKeys o.activeTasks ++ mapKeys o.taskResults

/-- The only environment assumption on an operation: a submitted id is a fresh
`randomUUID()`, hence differs from every id the orchestrator has seen. -/
def Orchestrator.ValidOp (o : Orchestrator) : OrchOp → Prop
  | .submit _ freshId _ => freshId ∉ o.allTaskIds
  | _ => True

instance (o : Orchestrator) (op : OrchOp) : Decidable (o.ValidOp op) :=
  match op with
  | .submit _ freshId _ => inferInstanceAs (Decidable (freshId ∉ o.allTaskIds))
  | .report _ _ => inferInstanceAs (Decidable True)
  | .tick _ _ => inferInstanceAs (Decidable True)
  | .registerOp _ _ => inferInstanceAs (Decidable True)
  | .unregisterOp _ => inferInstanceAs (Decidable True)
  | .heartbeatOp _ _ => inferInstanceAs (Decidable True)

inductive Orchestrator.Reachable (cfg : OrchestratorConfig) : Orchestrator → Prop
  | init : Orchestrator.Reachable cfg (Orchestrator.init cfg)
  | step (o : Orchestrator) (op : OrchOp) : Orchestrator.Reachable cfg o →
      o.ValidOp op → Orchestrator.Reachable cfg (o.step op)

def runOps (o : Orchestrator) (ops : List OrchOp) : Orchestrator :=
  ops.foldl Orchestrator.step o

/-! ### State invariant -/

/-- The task ids currently sitting in the pending queue and the active table. -/
def QueueActiveIds (o : Orchestrator) : List String :=
  o.taskQueue.map Task.id ++ mapKeys o.activeTasks

/-- The inductive invariant of the orchestrator state. -/
structure Inv (o : Orchestrator) : Prop where
  nodup : (QueueActiveIds o).Nodup
  queueInv : ∀ t ∈ o.taskQueue, t.status = .pending ∧ t.retries ≤ t.maxRetries
  activeInv : ∀ p ∈ o.activeTasks, p.2.id = p.1 ∧ p.2.status = .assigned ∧
      p.2.retries ≤ p.2.maxRetries ∧ p.2.assignedTo.isSome ∧ p.2.assignedAt.isSome
  registryInv : ∀ p ∈ o.registry.workers, p.2.id = p.1

/-- The shape a timed-out task takes when its retries are exhausted. -/
def timeoutFailedTask (t : Task) (now : Nat) : Task :=
  { t with status := .failed, completedAt := some now, error := some "Task timed out" }

/-! ### Concrete scenarios from the specification -/

def retryConfig : OrchestratorConfig :=
  { routingStrategy := .leastLoaded, heartbeatIntervalMs := 30000,
    missedHeartbeatsThreshold := 3, defaultTaskTimeoutMs := 60000,
    defaultMaxRetries := 1, maxQueueSize := 1000 }

def workerW1 : WorkerDescriptor :=
  { id := "w1", name := "W1", endpoint := "h1", capabilities := ["code"],
    currentLoad := 0, maxLoad := 2, metadata := none }

def codeSubmission : TaskSubmission :=
  { type := "code", payload := "p", priority := none, timeoutMs := none,
    maxRetries := none }

def failBoom : TaskResult :=
  { taskId := "T1", workerId := "w1", success := false, result := none,
    error := some "boom", durationMs := 10 }

/-- Scenario 2 prefix: register, submit, assign, then report one failure with
`retries < maxRetries` (so the task is re-queued for retry). -/
def retryState : Orchestrator :=
  runOps (Orchestrator.init retryConfig)
    [.registerOp workerW1 0, .submit codeSubmission "T1" 1, .tick 2 [],
     .report failBoom 3]

/-- Scenario 2 completion: re-assign the retried task and fail it again. -/
def exhaustState : Orchestrator :=
  runOps retryState [.tick 4 [], .report failBoom 5]

/-- Register, submit, assign, then unregister the worker the task is assigned to. -/
def unregisterState : Orchestrator :=
  runOps (Orchestrator.init retryConfig)
    [.registerOp workerW1 0, .submit codeSubmission "T1" 1, .tick 2 [],
     .unregisterOp "w1"]

def happyConfig : OrchestratorConfig :=
  { retryConfig with defaultMaxRetries := 0, defaultTaskTimeoutMs := 5000 }

def chatWorker : WorkerDescriptor := { workerW1 with capabilities := ["chat"] }

def chatSubmission : TaskSubmission := { codeSubmission with type := "chat", payload := "hi" }

def okResult : TaskResult :=
  { taskId := "T1", workerId := "w1", success := true, result := some "ok",
    error := none, durationMs := 42 }

/-- Scenario 1 (happy path): register, submit, assign, report success. -/
def happyState : Orchestrator :=
  runOps (Orchestrator.init happyConfig)
    [.registerOp chatWorker 0, .submit chatSubmission "T1" 1, .tick 2 [],
     .report okResult 3]

def submissionWithPriority (p : TaskPriority) : TaskSubmission :=
  { type := "t", payload := "p", priority := some p, timeoutMs := none,
    maxRetries := none }

/-- Scenario 3: submit normal, high, normal, critical in that order. -/
def priorityState : Orchestrator :=
  runOps (Orchestrator.init retryConfig)
    [.submit (submissionWithPriority .normal) "N1" 1,
     .submit (submissionWithPriority .high) "H" 2,
     .submit (submissionWithPriority .normal) "N2" 3,
     .submit (submissionWithPriority .critical) "C" 4]

def timeoutConfig : OrchestratorConfig :=
  { retryConfig with defaultTaskTimeoutMs := 100, defaultMaxRetries := 0 }

/-- Scenario 5 prefix: register, submit, assign (timeout 100 ms, no retries). -/
def timeoutAssignedState : Orchestrator :=
  runOps (Orchestrator.init timeoutConfig)
    [.registerOp workerW1 0, .submit codeSubmission "T1" 1, .tick 2 []]

/-- The active task of `timeoutAssignedState`. -/
def taskT1Assigned : Task :=
  { id := "T1", type := "code", payload := "p", priority := .normal,
    status := .assigned, createdAt := 1, assignedTo := some "w1", assignedAt := some 2,
    completedAt := none, result := none, error := none, retries := 0, maxRetries := 0,
    timeoutMs := 100 }

/-- Scenario 6 breaker configuration: `{failureThreshold: 0.5, minimumRequests: 4,
windowMs: 10000, cooldownMs: 200, successThreshold: 2}`, initial state. -/
def breakerScenario : CircuitBreaker :=
  { state := .closed, records := [], lastFailure := 0, halfOpenSuccesses := 0,
    failureThreshold := 1/2, minimumRequests := 4, windowMs := 10000,
    cooldownMs := 200, successThreshold := 2 }

/-- Nondecreasing priority rank, the queue order of invariant I4. -/
def priorityLE (a b : Task) : Prop :=
  priorityOrder a.priority ≤ priorityOrder b.priority

instance (a b : Task) : Decidable (priorityLE a b) :=
  inferInstanceAs (Decidable (priorityOrder a.priority ≤ priorityOrder b.priority))

/-- The task minted by the `codeSubmission` scenario submit. -/
def c6Task : Task := (Orchestrator.init retryConfig).mintTask codeSubmission "T1" 1

/-- The registry holding just `workerW1` (registered at time 0). -/
def c6Registry : WorkerRegistry :=
  ((Orchestrator.init retryConfig).registerWorker workerW1 0).1.registry

/-- A fresh least-loaded router. -/
def c6Router : TaskRouter := { strategy := .leastLoaded, roundRobinIndex := 0 }

/-- Backoff options of the docstring example, with `jitter := 0`. -/
def backoffOpts0 : BackoffOptions :=
  { baseDelayMs := 1000, maxDelayMs := 30000, jitter := 0, maxAttempts := 5 }

/-! ### Lemmas about the association-map model -/

theorem mapFind_cons {β : Type} (k1 : String) (v1 : β) (rest : List (String × β))
    (k : String) :
    mapFind ((k1, v1) :: rest) k = if k1 = k then some v1 else mapFind rest k := rfl

theorem mapSet_cons {β : Type} (k1 : String) (v1 : β) (rest : List (String × β))
    (k : String) (v : β) :
    mapSet ((k1, v1) :: rest) k v =
      if k1 = k then (k, v) :: rest else (k1, v1) :: mapSet rest k v := rfl

theorem mapErase_cons {β : Type} (k1 : String) (v1 : β) (rest : List (String × β))
    (k : String) :
    mapErase ((k1, v1) :: rest) k = if k1 = k then rest else (k1, v1) :: mapErase rest k :=
  rfl

theorem mapFind_mem {β : Type} {l : List (String × β)} {k : String} {v : β}
    (h : mapFind l k = some v) : (k, v) ∈ l := by
  induction l with
  | nil => simp [mapFind] at h
  | cons p rest ih =>
      obtain ⟨k1, v1⟩ := p
      rw [mapFind_cons] at h
      by_cases hk : k1 = k
      · rw [if_pos hk] at h
        injection h with h
        subst hk; subst h
        exact List.mem_cons_self _ _
      · rw [if_neg hk] at h
        exact List.mem_cons_of_mem _ (ih h)

theorem mapFind_eq_of_mem {β : Type} {l : List (String × β)} {k : String} {v : β}
    (hnd : (mapKeys l).Nodup) (hm : (k, v) ∈ l) : mapFind l k = some v := by
  induction l with
  | nil => simp at hm
  | cons p rest ih =>
      obtain ⟨k1, v1⟩ := p
      simp only [mapKeys, List.map_cons, List.nodup_cons] at hnd
      rw [mapFind_cons]
      rcases List.mem_cons.mp hm with h | h
      · rw [Prod.mk.injEq] at h
        rw [if_pos h.1.symm, h.2]
      · have hk : k1 ≠ k := by
          intro he
          exact hnd.1 (he ▸ (List.mem_map.mpr ⟨(k, v), h, rfl⟩))
        rw [if_neg hk]
        exact ih hnd.2 h

theorem mapFind_eq_none_iff {β : Type} {l : List (String × β)} {k : String} :
    mapFind l k = none ↔ k ∉ mapKeys l := by
  induction l with
  | nil => simp [mapFind, mapKeys]
  | cons p rest ih =>
      obtain ⟨k1, v1⟩ := p
      rw [mapFind_cons]
      by_cases hk : k1 = k
      · subst hk
        simp [mapKeys]
      · simp only [if_neg hk, mapKeys, List.map_cons, List.mem_cons]
        rw [ih]
        simp [mapKeys, Ne.symm hk]

theorem mapErase_sublist {β : Type} (l : List (String × β)) (k : String) :
    List.Sublist (mapErase l k) l := by
  induction l with
  | nil => simp [mapErase]
  | cons p rest ih =>
      obtain ⟨k1, v1⟩ := p
      rw [mapErase_cons]
      by_cases hk : k1 = k
      · rw [if_pos hk]
        exact List.sublist_cons_self _ _
      · rw [if_neg hk]
        exact ih.cons₂ _

theorem mapKeys_mapErase {β : Type} (l : List (String × β)) (k : String) :
    mapKeys (mapErase l k) = (mapKeys l).erase k := by
  induction l with
  | nil => rfl
  | cons p rest ih =>
      obtain ⟨k1, v1⟩ := p
      rw [mapErase_cons]
      by_cases hk : k1 = k
      · subst hk
        rw [if_pos rfl]
        simp only [mapKeys, List.map_cons]
        rw [List.erase_cons_head]
      · rw [if_neg hk]
        show k1 :: mapKeys (mapErase rest k) = (List.map Prod.fst ((k1, v1) :: rest)).erase k
        rw [List.map_cons, List.erase_cons_tail]
        · rw [ih]
          rfl
        · simpa using hk

theorem mem_mapErase_of_ne {β : Type} {l : List (String × β)} {k k1 : String} {v : β}
    (hm : (k, v) ∈ l) (hne : k ≠ k1) : (k, v) ∈ mapErase l k1 := by
  induction l with
  | nil => simp at hm
  | cons p rest ih =>
      obtain ⟨k2, v2⟩ := p
      rw [mapErase_cons]
      by_cases hk : k2 = k1
      · rw [if_pos hk]
        rcases List.mem_cons.mp hm with h | h
        · rw [Prod.mk.injEq] at h
          exact absurd (h.1.trans hk) hne
        · exact h
      · rw [if_neg hk]
        rcases List.mem_cons.mp hm with h | h
        · exact h ▸ List.mem_cons_self _ _
        · exact List.mem_cons_of_mem _ (ih h)

theorem mapFind_mapSet_self {β : Type} (l : List (String × β)) (k : String) (v : β) :
    mapFind (mapSet l k v) k = some v := by
  induction l with
  | nil => simp [mapSet, mapFind]
  | cons p rest ih =>
      obtain ⟨k1, v1⟩ := p
      rw [mapSet_cons]
      by_cases hk : k1 = k
      · rw [if_pos hk, mapFind_cons, if_pos rfl]
      · rw [if_neg hk, mapFind_cons, if_neg hk]
        exact ih

theorem mapFind_mapSet_ne {β : Type} {l : List (String × β)} {k k1 : String} (v : β)
    (hne : k1 ≠ k) : mapFind (mapSet l k1 v) k = mapFind l k := by
  induction l with
  | nil => simp [mapSet, mapFind, hne]
  | cons p rest ih =>
      obtain ⟨k2, v2⟩ := p
      rw [mapSet_cons]
      by_cases hk : k2 = k1
      · rw [if_pos hk, mapFind_cons, if_neg hne, mapFind_cons, if_neg (hk ▸ hne)]
      · rw [if_neg hk, mapFind_cons, mapFind_cons, ih]

theorem mapKeys_mapSet_of_mem {β : Type} {l : List (String × β)} {k : String} {v : β}
    (h : k ∈ mapKeys l) : mapKeys (mapSet l k v) = mapKeys l := by
  induction l with
  | nil => simp [mapKeys] at h
  | cons p rest ih =>
      obtain ⟨k1, v1⟩ := p
      rw [mapSet_cons]
      by_cases hk : k1 = k
      · rw [if_pos hk, hk]
        rfl
      · rw [if_neg hk]
        have hmem : k ∈ mapKeys rest := by
          simp only [mapKeys, List.map_cons, List.mem_cons] at h
          rcases h with h1 | h1
          · exact absurd h1.symm hk
          · exact h1
        simp only [mapKeys, List.map_cons]
        rw [show List.map Prod.fst (mapSet rest k v) = mapKeys (mapSet rest k v) from rfl,
            ih hmem]
        rfl

theorem mapKeys_mapSet_of_not_mem {β : Type} {l : List (String × β)} {k : String} {v : β}
    (h : k ∉ mapKeys l) : mapKeys (mapSet l k v) = mapKeys l ++ [k] := by
  induction l with
  | nil => simp [mapSet, mapKeys]
  | cons p rest ih =>
      obtain ⟨k1, v1⟩ := p
      simp only [mapKeys, List.map_cons, List.mem_cons] at h
      push_neg at h
      rw [mapSet_cons, if_neg (Ne.symm h.1)]
      simp only [mapKeys, List.map_cons, List.cons_append]
      rw [show List.map Prod.fst (mapSet rest k v) = mapKeys (mapSet rest k v) from rfl,
          ih h.2]
      rfl

theorem mem_mapSet {β : Type} {l : List (String × β)} {k : String} {v : β}
    {p : String × β} (h : p ∈ mapSet l k v) : p = (k, v) ∨ p ∈ l := by
  induction l with
  | nil => simpa [mapSet] using h
  | cons q rest ih =>
      obtain ⟨k1, v1⟩ := q
      rw [mapSet_cons] at h
      by_cases hk : k1 = k
      · rw [if_pos hk] at h
        rcases List.mem_cons.mp h with h1 | h1
        · exact Or.inl h1
        · exact Or.inr (List.mem_cons_of_mem _ h1)
      · rw [if_neg hk] at h
        rcases List.mem_cons.mp h with h1 | h1
        · exact Or.inr (h1 ▸ List.mem_cons_self _ _)
        · rcases ih h1 with h2 | h2
          · exact Or.inl h2
          · exact Or.inr (List.mem_cons_of_mem _ h2)

theorem mapSet_split {β : Type} {l : List (String × β)} {k : String} {v : β}
    (h : mapFind l k = some v) :
    ∃ l1 l2, l = l1 ++ (k, v) :: l2 ∧ ∀ v1, mapSet l k v1 = l1 ++ (k, v1) :: l2 := by
  induction l with
  | nil => simp [mapFind] at h
  | cons p rest ih =>
      obtain ⟨k1, v1⟩ := p
      rw [mapFind_cons] at h
      by_cases hk : k1 = k
      · rw [if_pos hk] at h
        injection h with h
        refine ⟨[], rest, ?_, fun v2 => ?_⟩
        · simp [hk, h]
        · rw [List.nil_append, mapSet_cons, if_pos hk]
      · rw [if_neg hk] at h
        obtain ⟨l1, l2, hl, hset⟩ := ih h
        refine ⟨(k1, v1) :: l1, l2, by simp [hl], fun v2 => ?_⟩
        rw [mapSet_cons, if_neg hk, hset v2]
        rfl

/-! ### Lemmas about the priority queue -/

theorem insertByPriority_perm (q : List Task) (t : Task) :
    List.Perm (insertByPriority q t) (t :: q) := by
  induction q with
  | nil => simp [insertByPriority]
  | cons u us ih =>
      by_cases hc : priorityOrder t.priority < priorityOrder u.priority
      · simp [insertByPriority, hc]
      · simp only [insertByPriority, if_neg hc]
        exact (ih.cons u).trans (List.Perm.swap t u us)

theorem mem_insertByPriority {q : List Task} {t x : Task} :
    x ∈ insertByPriority q t ↔ x = t ∨ x ∈ q := by
  constructor
  · intro h
    simpa using (insertByPriority_perm q t).subset h
  · intro h
    apply ((insertByPriority_perm q t).mem_iff).mpr
    simpa using h

theorem insertByPriority_eq (q : List Task) (t : Task) :
    insertByPriority q t =
      q.takeWhile (fun u => priorityOrder u.priority ≤ priorityOrder t.priority)
        ++ t :: q.dropWhile (fun u => priorityOrder u.priority ≤ priorityOrder t.priority) := by
  induction q with
  | nil => simp [insertByPriority]
  | cons u us ih =>
      by_cases hc : priorityOrder t.priority < priorityOrder u.priority
      · have : ¬ priorityOrder u.priority ≤ priorityOrder t.priority := by omega
        simp [insertByPriority, hc, List.takeWhile_cons, List.dropWhile_cons, this]
      · have : priorityOrder u.priority ≤ priorityOrder t.priority := by omega
        simp [insertByPriority, hc, List.takeWhile_cons, List.dropWhile_cons, this, ih]

theorem queueIds_erase {q : List Task} {task : Task} (hnd : (q.map Task.id).Nodup)
    (hm : task ∈ q) : (q.erase task).map Task.id = (q.map Task.id).erase task.id := by
  induction q with
  | nil => simp at hm
  | cons u us ih =>
      simp only [List.map_cons, List.nodup_cons] at hnd
      by_cases hu : u = task
      · subst hu
        rw [List.erase_cons_head, List.map_cons, List.erase_cons_head]
      · have hmem : task ∈ us := by
          rcases List.mem_cons.mp hm with h | h
          · exact absurd h.symm hu
          · exact h
        have hid : u.id ≠ task.id := by
          intro he
          exact hnd.1 (he ▸ List.mem_map.mpr ⟨task, hmem, rfl⟩)
        rw [List.erase_cons_tail (by simpa using hu),
            List.map_cons, List.map_cons,
            List.erase_cons_tail (by simpa using hid),
            ih hnd.2 hmem]

theorem insertByPriority_sorted {q : List Task} (t : Task)
    (h : q.Pairwise priorityLE) : (insertByPriority q t).Pairwise priorityLE := by
  induction q with
  | nil => simp [insertByPriority]
  | cons u us ih =>
      rw [List.pairwise_cons] at h
      by_cases hc : priorityOrder t.priority < priorityOrder u.priority
      · simp only [insertByPriority, if_pos hc]
        refine List.Pairwise.cons ?_ (List.Pairwise.cons h.1 h.2)
        intro b hb
        rcases List.mem_cons.mp hb with hb | hb
        · exact hb ▸ Nat.le_of_lt hc
        · exact Nat.le_trans (Nat.le_of_lt hc) (h.1 b hb)
      · simp only [insertByPriority, if_neg hc]
        refine List.Pairwise.cons ?_ (ih h.2)
        intro b hb
        rcases mem_insertByPriority.mp hb with hb | hb
        · exact hb ▸ Nat.le_of_not_lt hc
        · exact h.1 b hb

/-! ### Invariant preservation -/

theorem inv_submitTask {o : Orchestrator} (s : TaskSubmission) (freshId : String)
    (now : Nat) (hInv : Inv o) (hfresh : freshId ∉ o.allTaskIds) :
    Inv (o.submitTask s freshId now).1 := by
  rw [Orchestrator.submitTask]
  by_cases hfull : o.taskQueue.length ≥ o.config.maxQueueSize
  · rw [if_pos hfull]
    exact hInv
  · rw [if_neg hfull]
    simp only [Orchestrator.allTaskIds, List.append_assoc, List.mem_append, not_or]
      at hfresh
    refine ⟨?_, ?_, hInv.activeInv, hInv.registryInv⟩
    · show ((insertByPriority o.taskQueue (o.mintTask s freshId now)).map Task.id ++
        mapKeys o.activeTasks).Nodup
      have hperm := ((insertByPriority_perm o.taskQueue
        (o.mintTask s freshId now)).map Task.id).append_right (mapKeys o.activeTasks)
      rw [hperm.nodup_iff, List.map_cons, List.cons_append, List.nodup_cons]
      refine ⟨?_, hInv.nodup⟩
      intro hmem
      rcases List.mem_append.mp hmem with h | h
      · exact hfresh.1 h
      · exact hfresh.2.1 h
    · intro t ht
      rcases mem_insertByPriority.mp ht with h | h
      · subst h
        exact ⟨rfl, Nat.zero_le _⟩
      · exact hInv.queueInv t h

theorem inv_reportTaskResult {o : Orchestrator} (r : TaskResult) (now : Nat)
    (hInv : Inv o) : Inv (o.reportTaskResult r now).1 := by
  cases hfind : mapFind o.activeTasks r.taskId with
  | none =>
      simp only [Orchestrator.reportTaskResult, hfind]
      exact hInv
  | some task =>
      have hmem : (r.taskId, task) ∈ o.activeTasks := mapFind_mem hfind
      have htask := hInv.activeInv _ hmem
      have hndsplit := List.nodup_append.mp hInv.nodup
      have hkeyErase : mapKeys (mapErase o.activeTasks r.taskId) =
          (mapKeys o.activeTasks).erase r.taskId := mapKeys_mapErase _ _
      have hnd1 : (o.taskQueue.map Task.id ++
          mapKeys (mapErase o.activeTasks r.taskId)).Nodup := by
        refine List.Sublist.nodup ?_ hInv.nodup
        exact List.Sublist.append_left (hkeyErase ▸ List.erase_sublist _ _) _
      have hactive1 : ∀ p ∈ mapErase o.activeTasks r.taskId,
          p.2.id = p.1 ∧ p.2.status = .assigned ∧ p.2.retries ≤ p.2.maxRetries ∧
            p.2.assignedTo.isSome ∧ p.2.assignedAt.isSome :=
        fun p hp => hInv.activeInv p ((mapErase_sublist _ _).subset hp)
      simp only [Orchestrator.reportTaskResult, hfind]
      by_cases hs : r.success
      · rw [if_pos hs]
        exact ⟨hnd1, hInv.queueInv, hactive1, hInv.registryInv⟩
      · rw [if_neg hs]
        by_cases hretry : task.retries < task.maxRetries
        · rw [if_pos hretry]
          refine ⟨?_, ?_, hactive1, hInv.registryInv⟩
          · show ((insertByPriority o.taskQueue (retriedTask task)).map Task.id ++
              mapKeys (mapErase o.activeTasks r.taskId)).Nodup
            have hidr : (retriedTask task).id = r.taskId := htask.1
            have hperm := ((insertByPriority_perm o.taskQueue
              (retriedTask task)).map Task.id).append_right
                (mapKeys (mapErase o.activeTasks r.taskId))
            rw [hperm.nodup_iff, List.map_cons, List.cons_append, List.nodup_cons]
            refine ⟨?_, hnd1⟩
            intro hmem1
            have hkeymem : r.taskId ∈ mapKeys o.activeTasks :=
              List.mem_map.mpr ⟨(r.taskId, task), hmem, rfl⟩
            rcases List.mem_append.mp hmem1 with h | h
            · exact hndsplit.2.2 h (by rw [hidr]; exact hkeymem)
            · rw [hkeyErase, hidr] at h
              exact ((hndsplit.2.1.mem_erase_iff).mp h).1 rfl
          · intro t ht
            rcases mem_insertByPriority.mp ht with h | h
            · subst h
              exact ⟨rfl, hretry⟩
            · exact hInv.queueInv t h
        · rw [if_neg hretry]
          exact ⟨hnd1, hInv.queueInv, hactive1, hInv.registryInv⟩

theorem inv_registerWorker {o : Orchestrator} (d : WorkerDescriptor) (now : Nat)
    (hInv : Inv o) : Inv (o.registerWorker d now).1 := by
  refine ⟨hInv.nodup, hInv.queueInv, hInv.activeInv, ?_⟩
  intro p hp
  have : p ∈ mapSet o.registry.workers d.id (d.assemble now) := by
    simpa [Orchestrator.registerWorker, WorkerRegistry.register] using
      (by cases hfind : mapFind o.registry.workers d.id with
          | none => simpa [Orchestrator.registerWorker, WorkerRegistry.register, hfind] using hp
          | some w => simpa [Orchestrator.registerWorker, WorkerRegistry.register, hfind] using hp)
  rcases mem_mapSet this with h | h
  · subst h
    rfl
  · exact hInv.registryInv p h

theorem inv_unregisterWorker {o : Orchestrator} (workerId : String) (hInv : Inv o) :
    Inv (o.unregisterWorker workerId).1 := by
  refine ⟨hInv.nodup, hInv.queueInv, hInv.activeInv, ?_⟩
  intro p hp
  rw [Orchestrator.unregisterWorker, WorkerRegistry.unregister] at hp
  cases hfind : mapFind o.registry.workers workerId with
  | none =>
      rw [hfind] at hp
      exact hInv.registryInv p hp
  | some w =>
      rw [hfind] at hp
      exact hInv.registryInv p ((mapErase_sublist _ _).subset hp)

theorem inv_assignLoop (now : Nat) {ptasks : List Task} {rands : List Nat}
    {o : Orchestrator} (hInv : Inv o)
    (hsub : ∀ t ∈ ptasks, t ∈ o.taskQueue)
    (hnd : (ptasks.map Task.id).Nodup) :
    Inv (assignLoop now ptasks rands o).1 := by
  induction ptasks generalizing o rands with
  | nil => exact hInv
  | cons task rest ih =>
      simp only [assignLoop]
      cases hroute : o.router.route task o.registry (rands.headD 0) with
      | mk oassign router1 =>
          simp only [List.map_cons, List.nodup_cons] at hnd
          have hmemq : task ∈ o.taskQueue := hsub task (List.mem_cons_self _ _)
          have hsubrest : ∀ t ∈ rest, t ∈ o.taskQueue :=
            fun t ht => hsub t (List.mem_cons_of_mem _ ht)
          cases oassign with
          | none =>
              exact ih ⟨hInv.nodup, hInv.queueInv, hInv.activeInv, hInv.registryInv⟩
                hsubrest hnd.2
          | some assignment =>
              have hnds := List.nodup_append.mp hInv.nodup
              have hknot : task.id ∉ mapKeys o.activeTasks := fun hk =>
                hnds.2.2 (List.mem_map.mpr ⟨task, hmemq, rfl⟩) hk
              have hqids : (o.taskQueue.erase task).map Task.id =
                  (o.taskQueue.map Task.id).erase task.id :=
                queueIds_erase hnds.1 hmemq
              have hInv1 : Inv { o with
                  router := router1
                  taskQueue := o.taskQueue.erase task
                  activeTasks := mapSet o.activeTasks task.id
                    { task with
                      status := .assigned
                      assignedTo := some assignment.workerId
                      assignedAt := some now } } := by
                refine ⟨?_, ?_, ?_, hInv.registryInv⟩
                · show ((o.taskQueue.erase task).map Task.id ++
                    mapKeys (mapSet o.activeTasks task.id _)).Nodup
                  rw [hqids, mapKeys_mapSet_of_not_mem hknot, List.nodup_append]
                  refine ⟨hnds.1.erase _, ?_, ?_⟩
                  · rw [List.nodup_append]
                    refine ⟨hnds.2.1, List.nodup_singleton _, ?_⟩
                    intro x hx hx1
                    rw [List.mem_singleton] at hx1
                    exact hknot (hx1 ▸ hx)
                  · intro x hx hx1
                    have hx2 := (hnds.1.mem_erase_iff).mp hx
                    rcases List.mem_append.mp hx1 with h | h
                    · exact hnds.2.2 hx2.2 h
                    · exact hx2.1 (List.mem_singleton.mp h)
                · intro t ht
                  exact hInv.queueInv t ((List.erase_sublist _ _).subset ht)
                · intro p hp
                  rcases mem_mapSet hp with h | h
                  · subst h
                    exact ⟨rfl, rfl, (hInv.queueInv task hmemq).2, rfl, rfl⟩
                  · exact hInv.activeInv p h
              have hsub1 : ∀ t ∈ rest, t ∈ o.taskQueue.erase task := by
                intro t ht
                have hne : t ≠ task := by
                  intro he
                  have : task.id ∈ rest.map Task.id :=
                    List.mem_map.mpr ⟨t, ht, by rw [he]⟩
                  exact hnd.1 this
                exact (List.mem_erase_of_ne hne).mpr (hsubrest t ht)
              exact ih hInv1 hsub1 hnd.2

theorem inv_heartbeat {o : Orchestrator} (p : HeartbeatPayload) (now : Nat)
    (hInv : Inv o) : Inv (o.heartbeat p now).1 := by
  refine ⟨hInv.nodup, hInv.queueInv, hInv.activeInv, ?_⟩
  intro q hq
  rw [Orchestrator.heartbeat, WorkerRegistry.heartbeat] at hq
  cases hfind : mapFind o.registry.workers p.workerId with
  | none =>
      rw [hfind] at hq
      exact hInv.registryInv q hq
  | some w =>
      rw [hfind] at hq
      simp only at hq
      have hw : w.id = p.workerId := hInv.registryInv _ (mapFind_mem hfind)
      rcases mem_mapSet hq with h | h
      · subst h
        exact hw
      · exact hInv.registryInv q h

theorem timeoutStep_overdue {now : Nat} {taskId : String} {task : Task}
    (o : Orchestrator) {a : Nat} (hassign : task.assignedAt = some a) (ha : a ≠ 0)
    (hover : now - a > task.timeoutMs) :
    timeoutStep now taskId task o =
      o.reportTaskResult (timeoutResultFor taskId task a now) now := by
  simp only [timeoutStep, hassign]
  rw [if_pos ⟨ha, hover⟩]

theorem timeoutStep_cases (now : Nat) (taskId : String) (task : Task)
    (o : Orchestrator) :
    timeoutStep now taskId task o = (o, []) ∨
    ∃ a, task.assignedAt = some a ∧
      timeoutStep now taskId task o =
        o.reportTaskResult (timeoutResultFor taskId task a now) now := by
  cases hassign : task.assignedAt with
  | none =>
      left
      simp [timeoutStep, hassign]
  | some a =>
      by_cases hg : a ≠ 0 ∧ now - a > task.timeoutMs
      · right
        exact ⟨a, rfl, by simp only [timeoutStep, hassign]; rw [if_pos hg]⟩
      · left
        simp only [timeoutStep, hassign]
        rw [if_neg hg]

theorem inv_checkTimeoutsAux (now : Nat) (entries : List (String × Task))
    {o : Orchestrator} (hInv : Inv o) : Inv (checkTimeoutsAux now entries o).1 := by
  induction entries generalizing o with
  | nil => exact hInv
  | cons p rest ih =>
      obtain ⟨taskId, task⟩ := p
      simp only [checkTimeoutsAux]
      apply ih
      rcases timeoutStep_cases now taskId task o with h | ⟨a, hassign, h⟩
      · rw [h]
        exact hInv
      · rw [h]
        exact inv_reportTaskResult _ now hInv

theorem inv_checkTimeouts {o : Orchestrator} (now : Nat) (hInv : Inv o) :
    Inv (o.checkTimeouts now).1 :=
  inv_checkTimeoutsAux now o.activeTasks hInv

theorem inv_processQueue {o : Orchestrator} (now : Nat) (rands : List Nat)
    (hInv : Inv o) : Inv (o.processQueue now rands).1 := by
  have hswept := inv_checkTimeouts now hInv
  show Inv (assignLoop now
    ((o.checkTimeouts now).1.taskQueue.filter (fun t => t.status == .pending)) rands
    (o.checkTimeouts now).1).1
  refine inv_assignLoop now hswept (fun t ht => List.mem_of_mem_filter ht) ?_
  exact ((List.filter_sublist _).map Task.id).nodup
    (List.nodup_append.mp hswept.nodup).1

theorem inv_step {o : Orchestrator} (op : OrchOp) (hInv : Inv o)
    (hvalid : o.ValidOp op) : Inv (o.step op) := by
  cases op with
  | submit s freshId now => exact inv_submitTask s freshId now hInv hvalid
  | report r now => exact inv_reportTaskResult r now hInv
  | tick now rands => exact inv_processQueue now rands hInv
  | registerOp d now => exact inv_registerWorker d now hInv
  | unregisterOp workerId => exact inv_unregisterWorker workerId hInv
  | heartbeatOp p now => exact inv_heartbeat p now hInv

theorem inv_init (cfg : OrchestratorConfig) : Inv (Orchestrator.init cfg) := by
  refine ⟨?_, ?_, ?_, ?_⟩ <;> simp [Orchestrator.init, QueueActiveIds, mapKeys]

theorem reachable_inv {cfg : OrchestratorConfig} {o : Orchestrator}
    (h : Orchestrator.Reachable cfg o) : Inv o := by
  induction h with
  | init => exact inv_init cfg
  | step o1 op hreach hvalid ih => exact inv_step op ih hvalid

/-! ### Router selection lemmas -/

theorem selectLeastLoadedAux_mem (best : WorkerInfo) (ws : List WorkerInfo) :
    selectLeastLoadedAux best ws = best ∨ selectLeastLoadedAux best ws ∈ ws := by
  induction ws generalizing best with
  | nil => exact Or.inl rfl
  | cons w ws ih =>
      simp only [selectLeastLoadedAux]
      rcases ih (if loadFraction w < loadFraction best then w else best) with h | h
      · rw [h]
        by_cases hc : loadFraction w < loadFraction best
        · rw [if_pos hc]
          exact Or.inr (List.mem_cons_self _ _)
        · rw [if_neg hc]
          exact Or.inl rfl
      · exact Or.inr (List.mem_cons_of_mem _ h)

theorem selectLeastLoaded_mem {l : List WorkerInfo} {w : WorkerInfo}
    (h : TaskRouter.selectLeastLoaded l = some w) : w ∈ l := by
  cases l with
  | nil => simp [TaskRouter.selectLeastLoaded] at h
  | cons x xs =>
      simp only [TaskRouter.selectLeastLoaded, Option.some.injEq] at h
      subst h
      rcases selectLeastLoadedAux_mem x xs with h1 | h1
      · rw [h1]
        exact List.mem_cons_self _ _
      · exact List.mem_cons_of_mem _ h1

theorem selectLeastLoaded_isSome {l : List WorkerInfo} (h : l ≠ []) :
    ∃ w, TaskRouter.selectLeastLoaded l = some w := by
  cases l with
  | nil => exact absurd rfl h
  | cons x xs => exact ⟨_, rfl⟩

theorem selectByCapability_mem {l : List WorkerInfo} {task : Task} {w : WorkerInfo}
    (h : TaskRouter.selectByCapability l task = some w) : w ∈ l := by
  simp only [TaskRouter.selectByCapability] at h
  by_cases hc : (l.filter (fun x => x.capabilities.contains task.type)).length > 0
  · rw [if_pos hc] at h
    exact List.mem_of_mem_filter (selectLeastLoaded_mem h)
  · rw [if_neg hc] at h
    exact selectLeastLoaded_mem h

theorem getD_mem_of_lt {α : Type} (l : List α) (i : Nat) (d : α) (h : i < l.length) :
    l.getD i d ∈ l := by
  induction l generalizing i with
  | nil => simp at h
  | cons x xs ih =>
      cases i with
      | zero => simp [List.getD]
      | succ n =>
          rw [List.getD_cons_succ]
          exact List.mem_cons_of_mem _ (ih n (by simpa using h))

theorem selectRoundRobin_mem {router : TaskRouter} {l : List WorkerInfo}
    {w : WorkerInfo} {router1 : TaskRouter}
    (h : router.selectRoundRobin l = some (w, router1)) : w ∈ l := by
  cases l with
  | nil => simp [TaskRouter.selectRoundRobin] at h
  | cons x xs =>
      simp only [TaskRouter.selectRoundRobin, Option.some.injEq, Prod.mk.injEq] at h
      rw [← h.1]
      exact getD_mem_of_lt _ _ _ (Nat.mod_lt _ (by simp))

theorem selectRandom_mem {rand : Nat} {l : List WorkerInfo} {w : WorkerInfo}
    (h : TaskRouter.selectRandom rand l = some w) : w ∈ l := by
  cases l with
  | nil => simp [TaskRouter.selectRandom] at h
  | cons x xs =>
      simp only [TaskRouter.selectRandom, Option.some.injEq] at h
      rw [← h]
      exact getD_mem_of_lt _ _ _ (Nat.mod_lt _ (by simp))

theorem selectWorker_mem {router : TaskRouter} {workers : List WorkerInfo}
    {task : Task} {rand : Nat} {w : WorkerInfo}
    (h : (router.selectWorker workers task rand).1 = some w) : w ∈ workers := by
  cases workers with
  | nil => simp [TaskRouter.selectWorker] at h
  | cons x xs =>
      simp only [TaskRouter.selectWorker] at h
      cases hstrat : router.strategy with
      | roundRobin =>
          rw [hstrat] at h
          cases hrr : router.selectRoundRobin (x :: xs) with
          | none => simp [hrr] at h
          | some p =>
              obtain ⟨w1, router1⟩ := p
              rw [hrr] at h
              simp only [Option.some.injEq] at h
              exact h ▸ selectRoundRobin_mem hrr
      | leastLoaded =>
          rw [hstrat] at h
          exact selectLeastLoaded_mem h
      | capabilityMatch =>
          rw [hstrat] at h
          exact selectByCapability_mem h
      | random =>
          rw [hstrat] at h
          exact selectRandom_mem h

theorem selectWorker_isSome {router : TaskRouter} {workers : List WorkerInfo}
    (task : Task) (rand : Nat) (hne : workers ≠ []) :
    ∃ w router1, router.selectWorker workers task rand = (some w, router1) := by
  cases workers with
  | nil => exact absurd rfl hne
  | cons x xs =>
      simp only [TaskRouter.selectWorker]
      cases hstrat : router.strategy with
      | roundRobin => exact ⟨_, _, rfl⟩
      | leastLoaded => exact ⟨_, _, rfl⟩
      | capabilityMatch =>
          simp only [TaskRouter.selectByCapability]
          by_cases hc : ((x :: xs).filter
              (fun v => v.capabilities.contains task.type)).length > 0
          · rw [if_pos hc]
            cases hfil : (x :: xs).filter (fun v => v.capabilities.contains task.type) with
            | nil => rw [hfil] at hc; simp at hc
            | cons y ys => exact ⟨_, _, rfl⟩
          · rw [if_neg hc]
            exact ⟨_, _, rfl⟩
      | random => exact ⟨_, _, rfl⟩

theorem getEligibleWorkers_subset (task : Task) (reg : WorkerRegistry) :
    ∀ w ∈ TaskRouter.getEligibleWorkers task reg, w ∈ reg.getAvailable := by
  intro w hw
  simp only [TaskRouter.getEligibleWorkers] at hw
  by_cases ht : task.type ≠ ""
  · rw [if_pos ht] at hw
    by_cases hc : (reg.getAvailable.filter (fun v =>
        v.capabilities.length == 0 || v.capabilities.contains task.type)).length > 0
    · rw [if_pos hc] at hw
      exact List.mem_of_mem_filter hw
    · rw [if_neg hc] at hw
      exact hw
  · rw [if_neg ht] at hw
    exact hw

theorem getAvailable_subset (reg : WorkerRegistry) :
    ∀ w ∈ reg.getAvailable, w ∈ reg.getAll :=
  fun _ hw => List.mem_of_mem_filter hw

theorem route_characterization {router : TaskRouter} {task : Task}
    {reg : WorkerRegistry} {rand : Nat} {asg : TaskAssignment} {router1 : TaskRouter}
    (h : router.route task reg rand = (some asg, router1)) :
    ∃ w ∈ TaskRouter.getEligibleWorkers task reg, asg.workerId = w.id ∧
      asg.task = task := by
  simp only [TaskRouter.route] at h
  by_cases hz : (TaskRouter.getEligibleWorkers task reg).length == 0
  · rw [if_pos hz] at h
    simp at h
  · rw [if_neg hz] at h
    cases hsel : router.selectWorker (TaskRouter.getEligibleWorkers task reg) task rand with
    | mk ow router2 =>
        cases ow with
        | none => rw [hsel] at h; simp at h
        | some w =>
            rw [hsel] at h
            simp only [Prod.mk.injEq, Option.some.injEq] at h
            refine ⟨w, selectWorker_mem (by rw [hsel]), ?_, ?_⟩
            · rw [← h.1]
            · rw [← h.1]

theorem route_isSome {router : TaskRouter} {task : Task} {reg : WorkerRegistry}
    (rand : Nat) (hne : TaskRouter.getEligibleWorkers task reg ≠ []) :
    ∃ asg router1, router.route task reg rand = (some asg, router1) := by
  simp only [TaskRouter.route]
  have hz : ((TaskRouter.getEligibleWorkers task reg).length == 0) = false := by
    cases hcase : TaskRouter.getEligibleWorkers task reg with
    | nil => exact absurd hcase hne
    | cons x xs => simp [hcase]
  rw [hz]
  simp only [Bool.false_eq_true, if_false]
  obtain ⟨w, router1, hsel⟩ := selectWorker_isSome task rand hne
  rw [hsel]
  exact ⟨_, _, rfl⟩

/-! ### Registry lemmas -/

theorem register_workers_eq (reg : WorkerRegistry) (d : WorkerDescriptor) (now : Nat) :
    (reg.register d now).1.workers = mapSet reg.workers d.id (d.assemble now) ∧
    (reg.register d now).2 = d.assemble now := by
  cases hfind : mapFind reg.workers d.id <;> simp [WorkerRegistry.register, hfind]

/-- Replacing a worker record in place with one that agrees on `status`,
`currentLoad` and `maxLoad` leaves `stats()` unchanged. -/
theorem stats_set_congr {reg : WorkerRegistry} {k : String} {w w1 : WorkerInfo}
    (hfind : mapFind reg.workers k = some w)
    (hst : w1.status = w.status) (hcur : w1.currentLoad = w.currentLoad)
    (hmax : w1.maxLoad = w.maxLoad) :
    WorkerRegistry.stats { reg with workers := mapSet reg.workers k w1 } =
      reg.stats := by
  obtain ⟨l1, l2, hl, hset⟩ := mapSet_split hfind
  rw [show mapSet reg.workers k w1 = l1 ++ (k, w1) :: l2 from hset w1]
  simp only [WorkerRegistry.stats, WorkerRegistry.getAll, hl, List.map_append,
    List.map_cons, List.length_append, List.length_cons,
    ← List.countP_eq_length_filter, List.countP_append, List.countP_cons,
    List.foldl_append, List.foldl_cons, hst, hcur, hmax]

/-! ### Frame lemmas for the timeout sweep -/

theorem report_frame_results {o : Orchestrator} {r : TaskResult} {now : Nat}
    {k : String} (hne : r.taskId ≠ k) :
    mapFind (o.reportTaskResult r now).1.taskResults k = mapFind o.taskResults k := by
  cases hfind : mapFind o.activeTasks r.taskId with
  | none => simp [Orchestrator.reportTaskResult, hfind]
  | some task =>
      simp only [Orchestrator.reportTaskResult, hfind]
      by_cases hs : r.success
      · rw [if_pos hs]
        exact mapFind_mapSet_ne _ hne
      · rw [if_neg hs]
        by_cases hretry : task.retries < task.maxRetries
        · rw [if_pos hretry]
          exact mapFind_mapSet_ne _ hne
        · rw [if_neg hretry]
          exact mapFind_mapSet_ne _ hne

theorem report_activeKeys_sublist (o : Orchestrator) (r : TaskResult) (now : Nat) :
    List.Sublist (mapKeys (o.reportTaskResult r now).1.activeTasks)
      (mapKeys o.activeTasks) := by
  cases hfind : mapFind o.activeTasks r.taskId with
  | none =>
      simp only [Orchestrator.reportTaskResult, hfind]
      exact List.Sublist.refl _
  | some task =>
      simp only [Orchestrator.reportTaskResult, hfind]
      by_cases hs : r.success
      · rw [if_pos hs]
        exact mapKeys_mapErase o.activeTasks r.taskId ▸ List.erase_sublist _ _
      · rw [if_neg hs]
        by_cases hretry : task.retries < task.maxRetries
        · rw [if_pos hretry]
          exact mapKeys_mapErase o.activeTasks r.taskId ▸ List.erase_sublist _ _
        · rw [if_neg hretry]
          exact mapKeys_mapErase o.activeTasks r.taskId ▸ List.erase_sublist _ _

theorem report_queue_mem {o : Orchestrator} {r : TaskResult} {now : Nat} {t : Task}
    (hm : t ∈ o.taskQueue) : t ∈ (o.reportTaskResult r now).1.taskQueue := by
  cases hfind : mapFind o.activeTasks r.taskId with
  | none =>
      simp only [Orchestrator.reportTaskResult, hfind]
      exact hm
  | some task =>
      simp only [Orchestrator.reportTaskResult, hfind]
      by_cases hs : r.success
      · rw [if_pos hs]
        exact hm
      · rw [if_neg hs]
        by_cases hretry : task.retries < task.maxRetries
        · rw [if_pos hretry]
          exact mem_insertByPriority.mpr (Or.inr hm)
        · rw [if_neg hretry]
          exact hm

theorem report_active_mem_of_ne {o : Orchestrator} {r : TaskResult} {now : Nat}
    {k : String} {t : Task} (hm : (k, t) ∈ o.activeTasks) (hne : k ≠ r.taskId) :
    (k, t) ∈ (o.reportTaskResult r now).1.activeTasks := by
  cases hfind : mapFind o.activeTasks r.taskId with
  | none =>
      simp only [Orchestrator.reportTaskResult, hfind]
      exact hm
  | some task =>
      simp only [Orchestrator.reportTaskResult, hfind]
      by_cases hs : r.success
      · rw [if_pos hs]
        exact mem_mapErase_of_ne hm hne
      · rw [if_neg hs]
        by_cases hretry : task.retries < task.maxRetries
        · rw [if_pos hretry]
          exact mem_mapErase_of_ne hm hne
        · rw [if_neg hretry]
          exact mem_mapErase_of_ne hm hne

/-- How `reportTaskResult` acts on a failure whose task is in the active table. -/
theorem report_failure_found {o : Orchestrator} {r : TaskResult} {task : Task}
    (now : Nat) (hfind : mapFind o.activeTasks r.taskId = some task)
    (hs : r.success = false) :
    o.reportTaskResult r now =
      if task.retries < task.maxRetries then
        ({ o with
            taskQueue := insertByPriority o.taskQueue (retriedTask task)
            activeTasks := mapErase o.activeTasks r.taskId
            taskResults := mapSet o.taskResults r.taskId r }, [])
      else
        ({ o with
            activeTasks := mapErase o.activeTasks r.taskId
            taskResults := mapSet o.taskResults r.taskId r },
         [.taskFailed (failedTaskOf task r now) (r.error.getD "Unknown error")]) := by
  simp only [Orchestrator.reportTaskResult, hfind, hs]
  by_cases hretry : task.retries < task.maxRetries
  · simp [hretry]
  · simp [hretry]

theorem checkTimeoutsAux_frame (now : Nat) (entries : List (String × Task))
    {o : Orchestrator} {k : String} (hk : k ∉ entries.map Prod.fst) :
    mapFind (checkTimeoutsAux now entries o).1.taskResults k = mapFind o.taskResults k ∧
    (k ∉ mapKeys o.activeTasks →
      k ∉ mapKeys (checkTimeoutsAux now entries o).1.activeTasks) ∧
    (∀ t ∈ o.taskQueue, t ∈ (checkTimeoutsAux now entries o).1.taskQueue) := by
  induction entries generalizing o with
  | nil => exact ⟨rfl, fun h => h, fun t ht => ht⟩
  | cons p rest ih =>
      obtain ⟨taskId, task⟩ := p
      simp only [List.map_cons, List.mem_cons, not_or] at hk
      simp only [checkTimeoutsAux]
      rcases timeoutStep_cases now taskId task o with h | ⟨a, hassign, h⟩
      · rw [h]
        exact ih hk.2
      · rw [h]
        obtain ⟨f1, f2, f3⟩ :=
          ih (o := (o.reportTaskResult (timeoutResultFor taskId task a now) now).1) hk.2
        refine ⟨f1.trans (report_frame_results (Ne.symm hk.1)), ?_, ?_⟩
        · intro hout
          refine f2 (fun hin => hout ?_)
          exact (report_activeKeys_sublist o _ now).subset hin
        · intro t ht
          exact f3 t (report_queue_mem ht)

/-- Main lemma for the timeout sweep: an overdue active entry is reported as a
synthetic timeout failure and follows the uniform retry policy. -/
theorem checkTimeoutsAux_overdue (now : Nat) (entries : List (String × Task))
    {o : Orchestrator} {k : String} {t : Task} {a : Nat}
    (hndE : (entries.map Prod.fst).Nodup)
    (hmemE : (k, t) ∈ entries)
    (hmemA : (k, t) ∈ o.activeTasks)
    (hndA : (mapKeys o.activeTasks).Nodup)
    (hassign : t.assignedAt = some a) (ha : a ≠ 0) (hover : now - a > t.timeoutMs) :
    mapFind (checkTimeoutsAux now entries o).1.taskResults k =
        some (timeoutResultFor k t a now) ∧
    k ∉ mapKeys (checkTimeoutsAux now entries o).1.activeTasks ∧
    (t.retries < t.maxRetries →
      retriedTask t ∈ (checkTimeoutsAux now entries o).1.taskQueue) ∧
    (¬ t.retries < t.maxRetries →
      OrchEvent.taskFailed (failedTaskOf t (timeoutResultFor k t a now) now)
          "Task timed out" ∈ (checkTimeoutsAux now entries o).2) := by
  induction entries generalizing o with
  | nil => cases hmemE
  | cons p rest ih =>
      obtain ⟨k1, t1⟩ := p
      simp only [List.map_cons, List.nodup_cons] at hndE
      rcases List.mem_cons.mp hmemE with hhead | htail
      · rw [Prod.mk.injEq] at hhead
        obtain ⟨hk1, ht1⟩ := hhead
        subst hk1
        subst ht1
        have hfind : mapFind o.activeTasks k = some t := mapFind_eq_of_mem hndA hmemA
        simp only [checkTimeoutsAux]
        rw [timeoutStep_overdue o hassign ha hover, report_failure_found now hfind rfl]
        by_cases hretry : t.retries < t.maxRetries
        · rw [if_pos hretry]
          obtain ⟨f1, f2, f3⟩ := checkTimeoutsAux_frame now rest hndE.1
          refine ⟨f1.trans (mapFind_mapSet_self _ _ _), ?_, fun _ => ?_, fun hc => ?_⟩
          · refine f2 (fun hin => ?_)
            rw [mapKeys_mapErase] at hin
            exact (hndA.mem_erase_iff.mp hin).1 rfl
          · exact f3 _ (mem_insertByPriority.mpr (Or.inl rfl))
          · exact absurd hretry hc
        · rw [if_neg hretry]
          obtain ⟨f1, f2, f3⟩ := checkTimeoutsAux_frame now rest hndE.1
          refine ⟨f1.trans (mapFind_mapSet_self _ _ _), ?_, fun hc => ?_, fun _ => ?_⟩
          · refine f2 (fun hin => ?_)
            rw [mapKeys_mapErase] at hin
            exact (hndA.mem_erase_iff.mp hin).1 rfl
          · exact absurd hc hretry
          · exact List.mem_append.mpr (Or.inl (List.mem_singleton.mpr rfl))
      · have hkrest : k ∈ rest.map Prod.fst := List.mem_map.mpr ⟨(k, t), htail, rfl⟩
        have hne : k ≠ k1 := fun he => hndE.1 (he ▸ hkrest)
        simp only [checkTimeoutsAux]
        rcases timeoutStep_cases now k1 t1 o with h | ⟨a1, hassign1, h⟩
        · rw [h]
          exact ih hndE.2 htail hmemA hndA
        · rw [h]
          have hmemA1 : (k, t) ∈
              (o.reportTaskResult (timeoutResultFor k1 t1 a1 now) now).1.activeTasks :=
            report_active_mem_of_ne hmemA hne
          have hndA1 := (report_activeKeys_sublist o
            (timeoutResultFor k1 t1 a1 now) now).nodup hndA
          obtain ⟨g1, g2, g3, g4⟩ := ih hndE.2 htail hmemA1 hndA1
          exact ⟨g1, g2, g3, fun hc => List.mem_append.mpr (Or.inr (g4 hc))⟩

/-! ### Circuit breaker scenario lemmas -/

/-- Four failures on the scenario-6 breaker (all within the sliding window)
drive it from `closed` to `open`. -/
theorem breaker_four_failures_open (f1 f2 f3 f4 : Nat)
    (h12 : f1 ≤ f2) (h23 : f2 ≤ f3) (_h34 : f3 ≤ f4) (hw : f4 ≤ f1 + 10000) :
    (((breakerScenario.recordFailure f1).recordFailure f2).recordFailure
        f3).recordFailure f4 =
      { state := .open_,
        records := [⟨f1, false⟩, ⟨f2, false⟩, ⟨f3, false⟩, ⟨f4, false⟩],
        lastFailure := f4, halfOpenSuccesses := 0, failureThreshold := 1/2,
        minimumRequests := 4, windowMs := 10000, cooldownMs := 200,
        successThreshold := 2 } := by
  have e1 : breakerScenario.recordFailure f1 =
      { state := .closed, records := [⟨f1, false⟩], lastFailure := f1,
        halfOpenSuccesses := 0, failureThreshold := 1/2, minimumRequests := 4,
        windowMs := 10000, cooldownMs := 200, successThreshold := 2 } := by
    simp [CircuitBreaker.recordFailure, CircuitBreaker.evaluateState, breakerScenario]
  have e2 : (breakerScenario.recordFailure f1).recordFailure f2 =
      { state := .closed, records := [⟨f1, false⟩, ⟨f2, false⟩], lastFailure := f2,
        halfOpenSuccesses := 0, failureThreshold := 1/2, minimumRequests := 4,
        windowMs := 10000, cooldownMs := 200, successThreshold := 2 } := by
    rw [e1]
    simp [CircuitBreaker.recordFailure, CircuitBreaker.evaluateState]
  have e3 : ((breakerScenario.recordFailure f1).recordFailure f2).recordFailure f3 =
      { state := .closed, records := [⟨f1, false⟩, ⟨f2, false⟩, ⟨f3, false⟩],
        lastFailure := f3, halfOpenSuccesses := 0, failureThreshold := 1/2,
        minimumRequests := 4, windowMs := 10000, cooldownMs := 200,
        successThreshold := 2 } := by
    rw [e2]
    simp [CircuitBreaker.recordFailure, CircuitBreaker.evaluateState]
  rw [e3]
  have hc1 : (f4 : ℤ) ≤ (f1 : ℤ) + 10000 := by omega
  have hc2 : (f4 : ℤ) ≤ (f2 : ℤ) + 10000 := by omega
  have hc3 : (f4 : ℤ) ≤ (f3 : ℤ) + 10000 := by omega
  have hc4 : (f4 : ℤ) ≤ (f4 : ℤ) + 10000 := by omega
  simp [CircuitBreaker.recordFailure, CircuitBreaker.evaluateState,
    CircuitBreaker.getFailureRate, CircuitBreaker.pruneOldRecords, failureRateOf,
    CircuitBreaker.transitionTo, hc1, hc2, hc3, hc4]
  norm_num

/-- From `half_open` with no successes yet: two successes close the breaker
(clearing the samples); a failure before the second success re-opens it. -/
theorem breaker_halfOpen_transitions (cbH : CircuitBreaker)
    (hst : cbH.state = .halfOpen) (hhos : cbH.halfOpenSuccesses = 0)
    (hsth : cbH.successThreshold = 2) (s1 s2 g : Nat) :
    ((cbH.recordSuccess s1).recordSuccess s2).state = .closed ∧
    ((cbH.recordSuccess s1).recordSuccess s2).records = [] ∧
    (cbH.recordSuccess s1).state = .halfOpen ∧
    ((cbH.recordSuccess s1).recordFailure g).state = .open_ ∧
    (cbH.recordFailure g).state = .open_ := by
  have e1 : cbH.recordSuccess s1 = { cbH with
      records := cbH.records ++ [⟨s1, true⟩]
      halfOpenSuccesses := 1 } := by
    simp [CircuitBreaker.recordSuccess, hst, hhos, hsth, CircuitBreaker.transitionTo]
  refine ⟨?_, ?_, ?_, ?_, ?_⟩
  · rw [e1]
    simp [CircuitBreaker.recordSuccess, hst, hsth, CircuitBreaker.transitionTo]
  · rw [e1]
    simp [CircuitBreaker.recordSuccess, hst, hsth, CircuitBreaker.transitionTo]
  · rw [e1]
    exact hst
  · rw [e1]
    simp [CircuitBreaker.recordFailure, hst, CircuitBreaker.transitionTo]
  · simp [CircuitBreaker.recordFailure, hst, CircuitBreaker.transitionTo]

/-! ### Claims -/

/-- C1 (counterexample): the claim "a task whose failure is reported with
`retries < maxRetries` is not simultaneously present in the results table and
the pending queue" is false on the code: after register, submit, one
assignment tick and one retriable failure report, task `T1` is both in the
pending queue and (as the stored failure result) in the results table, because
`reportTaskResult` stores the result before the retry decision. -/
theorem C1_retry_in_results_and_queue :
    "T1" ∈ retryState.taskQueue.map Task.id ∧
    "T1" ∈ mapKeys retryState.taskResults ∧
    retryState.getTaskResult "T1" = some failBoom := by
  decide

/-- C1 (amended): after any sequence of `submitTask` (with fresh ids),
`processQueue` ticks, `reportTaskResult`, and registry calls, every task id
appears in at most one of the pending queue and the active-task table (and at
most once in each); exclusivity against the results table does not hold, since
a retried task stays recorded there. -/
theorem C1_location_exclusivity {cfg : OrchestratorConfig} {o : Orchestrator}
    (h : Orchestrator.Reachable cfg o) :
    (o.taskQueue.map Task.id ++ mapKeys o.activeTasks).Nodup :=
  (reachable_inv h).nodup

theorem C1_location_exclusivity_witness :
    (retryState.taskQueue.map Task.id ++ mapKeys retryState.activeTasks).Nodup := by
  have h : Orchestrator.Reachable retryConfig retryState := by
    show Orchestrator.Reachable retryConfig
      (((((Orchestrator.init retryConfig).step (.registerOp workerW1 0)).step
        (.submit codeSubmission "T1" 1)).step (.tick 2 [])).step (.report failBoom 3))
    exact Orchestrator.Reachable.step _ (.report failBoom 3)
      (Orchestrator.Reachable.step _ (.tick 2 [])
        (Orchestrator.Reachable.step _ (.submit codeSubmission "T1" 1)
          (Orchestrator.Reachable.step _ (.registerOp workerW1 0)
            Orchestrator.Reachable.init (by decide))
          (by decide))
        (by decide))
      (by decide)
  exact C1_location_exclusivity h

/-- C2 (code evaluation at the failing input): `stats()` computes the
`completed` and `failed` buckets by reducing over `this.taskQueue`, which only
ever holds pending tasks, so both counts are always 0. In scenario 1 the task
terminally completes (`getTaskResult` holds `success`) yet
`stats().tasks.completed = 0`, not 1; in scenario 2 the task terminally fails
yet `stats().tasks.failed = 0`, not 1. -/
theorem C2_stats_buckets_always_zero :
    (happyState.getTaskResult "T1").map TaskResult.success = some true ∧
    (happyState.stats).tasks.completed = 0 ∧
    (exhaustState.getTaskResult "T1").isSome = true ∧
    (exhaustState.stats).tasks.failed = 0 ∧
    (exhaustState.stats).tasks.queued = 0 ∧
    (exhaustState.stats).tasks.active = 0 := by
  decide

/-- C3: (1) in every reachable state all queued and active tasks satisfy
`retries ≤ maxRetries`; (2) when a failure is reported for an active task with
`retries = maxRetries`, the task is marked `failed` (never re-queued: the
queue is unchanged, a `taskFailed` event fires) with `retries = maxRetries`. -/
theorem C3_retry_bound :
    (∀ (cfg : OrchestratorConfig) (o : Orchestrator), Orchestrator.Reachable cfg o →
      (∀ t ∈ o.taskQueue, t.retries ≤ t.maxRetries) ∧
      (∀ p ∈ o.activeTasks, p.2.retries ≤ p.2.maxRetries)) ∧
    (∀ (o : Orchestrator) (r : TaskResult) (now : Nat) (task : Task),
      mapFind o.activeTasks r.taskId = some task → r.success = false →
      task.retries = task.maxRetries →
      o.reportTaskResult r now =
        ({ o with
            activeTasks := mapErase o.activeTasks r.taskId
            taskResults := mapSet o.taskResults r.taskId r },
         [.taskFailed (failedTaskOf task r now) (r.error.getD "Unknown error")]) ∧
      (failedTaskOf task r now).status = .failed ∧
      (failedTaskOf task r now).retries = task.maxRetries) := by
  constructor
  · intro cfg o h
    exact ⟨fun t ht => ((reachable_inv h).queueInv t ht).2,
           fun p hp => ((reachable_inv h).activeInv p hp).2.2.1⟩
  · intro o r now task hfind hs heq
    rw [report_failure_found now hfind hs,
        if_neg (by omega : ¬ task.retries < task.maxRetries)]
    exact ⟨rfl, rfl, heq⟩

theorem C3_retry_bound_witness :
    (∀ t ∈ (Orchestrator.init retryConfig).taskQueue, t.retries ≤ t.maxRetries) ∧
    (failedTaskOf taskT1Assigned (timeoutResultFor "T1" taskT1Assigned 2 203) 203).status =
      TaskStatus.failed ∧
    (failedTaskOf taskT1Assigned (timeoutResultFor "T1" taskT1Assigned 2 203) 203).retries =
      taskT1Assigned.maxRetries :=
  ⟨(C3_retry_bound.1 retryConfig (Orchestrator.init retryConfig)
      Orchestrator.Reachable.init).1,
   (C3_retry_bound.2 timeoutAssignedState (timeoutResultFor "T1" taskT1Assigned 2 203)
      203 taskT1Assigned (by decide) rfl rfl).2.1,
   (C3_retry_bound.2 timeoutAssignedState (timeoutResultFor "T1" taskT1Assigned 2 203)
      203 taskT1Assigned (by decide) rfl rfl).2.2⟩

/-- C4: (1) `insertByPriority` inserts exactly before the first queue entry of
strictly greater priority rank, i.e. after every entry of rank `≤` the new
task's (FIFO within a priority level); (2) it preserves nondecreasing priority
rank, so any sequence of submissions leaves the queue sorted by
`critical < high < normal < low`; (3) submitting normal, high, normal,
critical in that order yields queue order `[C, H, N1, N2]`. -/
theorem C4_priority_queue_order :
    (∀ (q : List Task) (t : Task),
      insertByPriority q t =
        q.takeWhile (fun u => priorityOrder u.priority ≤ priorityOrder t.priority) ++
          t :: q.dropWhile (fun u => priorityOrder u.priority ≤ priorityOrder t.priority)) ∧
    (∀ (q : List Task) (t : Task), q.Pairwise priorityLE →
      (insertByPriority q t).Pairwise priorityLE) ∧
    priorityState.taskQueue.map Task.id = ["C", "H", "N1", "N2"] :=
  ⟨insertByPriority_eq, fun _ t h => insertByPriority_sorted t h, by decide⟩

theorem C4_priority_queue_order_witness :
    priorityState.taskQueue.Pairwise priorityLE ∧
    (insertByPriority priorityState.taskQueue
      ((Orchestrator.init retryConfig).mintTask (submissionWithPriority .low)
        "L" 5)).Pairwise priorityLE :=
  ⟨by decide, C4_priority_queue_order.2.1 _ _ (by decide)⟩

/-- C5: during the sweep, an active entry with a JS-truthy `assignedAt = a`
and `now - a > timeoutMs` is fed through `reportTaskResult` as a failed result
with error "Task timed out" and `durationMs = now - a`; it leaves the active
table, the synthetic result is recorded, and the uniform retry policy applies:
with `retries < maxRetries` it re-enters the pending queue retried, otherwise
(e.g. `maxRetries = 0`) a `taskFailed` event fires for the terminally failed
task whose error contains "timed out". -/
theorem C5_timeout_sweep {o : Orchestrator} {now : Nat} {k : String} {t : Task}
    {a : Nat} (hnd : (mapKeys o.activeTasks).Nodup) (hmem : (k, t) ∈ o.activeTasks)
    (hassign : t.assignedAt = some a) (ha : a ≠ 0) (hover : now - a > t.timeoutMs) :
    (timeoutResultFor k t a now).success = false ∧
    (timeoutResultFor k t a now).error = some "Task timed out" ∧
    (timeoutResultFor k t a now).durationMs = now - a ∧
    mapFind (o.checkTimeouts now).1.taskResults k = some (timeoutResultFor k t a now) ∧
    k ∉ mapKeys (o.checkTimeouts now).1.activeTasks ∧
    (t.retries < t.maxRetries → retriedTask t ∈ (o.checkTimeouts now).1.taskQueue) ∧
    (¬ t.retries < t.maxRetries →
      OrchEvent.taskFailed (failedTaskOf t (timeoutResultFor k t a now) now)
        "Task timed out" ∈ (o.checkTimeouts now).2 ∧
      (failedTaskOf t (timeoutResultFor k t a now) now).status = .failed ∧
      (failedTaskOf t (timeoutResultFor k t a now) now).error =
        some "Task timed out") := by
  obtain ⟨m1, m2, m3, m4⟩ :=
    checkTimeoutsAux_overdue now o.activeTasks hnd hmem hmem hnd hassign ha hover
  exact ⟨rfl, rfl, rfl, m1, m2, m3, fun hc => ⟨m4 hc, rfl, rfl⟩⟩

theorem C5_timeout_sweep_witness :
    mapFind (timeoutAssignedState.checkTimeouts 203).1.taskResults "T1" =
      some (timeoutResultFor "T1" taskT1Assigned 2 203) ∧
    "T1" ∉ mapKeys (timeoutAssignedState.checkTimeouts 203).1.activeTasks ∧
    OrchEvent.taskFailed
        (failedTaskOf taskT1Assigned (timeoutResultFor "T1" taskT1Assigned 2 203) 203)
        "Task timed out" ∈ (timeoutAssignedState.checkTimeouts 203).2 :=
  ⟨(@C5_timeout_sweep timeoutAssignedState 203 "T1" taskT1Assigned 2
      (by decide) (by decide) rfl (by decide) (by decide)).2.2.2.1,
   (@C5_timeout_sweep timeoutAssignedState 203 "T1" taskT1Assigned 2
      (by decide) (by decide) rfl (by decide) (by decide)).2.2.2.2.1,
   ((@C5_timeout_sweep timeoutAssignedState 203 "T1" taskT1Assigned 2
      (by decide) (by decide) rfl (by decide) (by decide)).2.2.2.2.2.2 (by decide)).1⟩

/-- C6 (counterexample): the claim "`t.assignedTo` is the id of a worker
currently present in the Registry — including after an `unregisterWorker` call
for that worker" is false on the code: `unregister` removes the worker but
never touches assigned tasks, so after register, submit, one tick and
`unregisterWorker "w1")`, task `T1` is still `assigned` to `"w1"` while the
registry no longer contains `"w1"`. -/
theorem C6_unregister_dangling_assignment :
    ((unregisterState.getTask "T1").map Task.status) = some TaskStatus.assigned ∧
    ((unregisterState.getTask "T1").map Task.assignedTo) = some (some "w1") ∧
    unregisterState.registry.get "w1" = none := by
  decide

/-- C6 (amended): (1) in every reachable state, every task in the active table
has `status = assigned` and non-null `assignedTo`/`assignedAt`; (2) at the
moment of routing, the router only ever selects a worker present in the
Registry, so `assignedTo ∈ Registry` holds when the assignment is made —
but `unregisterWorker` does not clear or reassign active tasks, so membership
can be broken afterwards. -/
theorem C6_assignment_consistency :
    (∀ (cfg : OrchestratorConfig) (o : Orchestrator), Orchestrator.Reachable cfg o →
      ∀ p ∈ o.activeTasks, p.2.status = .assigned ∧
        p.2.assignedTo.isSome ∧ p.2.assignedAt.isSome) ∧
    (∀ (router : TaskRouter) (task : Task) (reg : WorkerRegistry) (rand : Nat)
        (asg : TaskAssignment) (router1 : TaskRouter),
      (∀ p ∈ reg.workers, p.2.id = p.1) →
      router.route task reg rand = (some asg, router1) →
      asg.workerId ∈ mapKeys reg.workers) := by
  constructor
  · intro cfg o h p hp
    obtain ⟨_, h2, _, h4, h5⟩ := (reachable_inv h).activeInv p hp
    exact ⟨h2, h4, h5⟩
  · intro router task reg rand asg router1 hkeys hroute
    obtain ⟨w, hw, hid, _⟩ := route_characterization hroute
    obtain ⟨p, hp, hpw⟩ := List.mem_map.mp
      (getAvailable_subset reg w (getEligibleWorkers_subset task reg w hw))
    rw [hid, ← hpw, hkeys p hp]
    exact List.mem_map.mpr ⟨p, hp, rfl⟩

theorem C6_assignment_consistency_witness :
    (∀ p ∈ unregisterState.activeTasks, p.2.status = TaskStatus.assigned ∧
      p.2.assignedTo.isSome ∧ p.2.assignedAt.isSome) ∧
    "w1" ∈ mapKeys c6Registry.workers := by
  constructor
  · have h : Orchestrator.Reachable retryConfig unregisterState := by
      show Orchestrator.Reachable retryConfig
        (((((Orchestrator.init retryConfig).step (.registerOp workerW1 0)).step
          (.submit codeSubmission "T1" 1)).step (.tick 2 [])).step (.unregisterOp "w1"))
      exact Orchestrator.Reachable.step _ (.unregisterOp "w1")
        (Orchestrator.Reachable.step _ (.tick 2 [])
          (Orchestrator.Reachable.step _ (.submit codeSubmission "T1" 1)
            (Orchestrator.Reachable.step _ (.registerOp workerW1 0)
              Orchestrator.Reachable.init (by decide))
            (by decide))
          (by decide))
        (by decide)
    exact C6_assignment_consistency.1 retryConfig unregisterState h
  · exact C6_assignment_consistency.2 c6Router c6Task c6Registry 0
      { task := c6Task, workerId := "w1" } c6Router (by decide) (by decide)

/-- C7: the scenario-6 circuit breaker state machine: with
`failureThreshold = 0.5`, `minimumRequests = 4`, `cooldownMs = 200`,
`successThreshold = 2`, four recorded failures (within the window) open the
breaker and `canExecute` returns false while the cooldown has not elapsed;
once `now - lastFailure ≥ 200`, `canExecute` returns true and the state is
`half_open`; from there two recorded successes close the breaker (clearing
the samples), while a failure before the second success re-opens it. -/
theorem C7_circuit_breaker (f1 f2 f3 f4 c h s1 s2 g : Nat)
    (h12 : f1 ≤ f2) (h23 : f2 ≤ f3) (h34 : f3 ≤ f4) (hw : f4 ≤ f1 + 10000)
    (hc : (c : ℤ) - (f4 : ℤ) < 200) (hh : (h : ℤ) - (f4 : ℤ) ≥ 200) :
    (let cb4 := (((breakerScenario.recordFailure f1).recordFailure f2).recordFailure
        f3).recordFailure f4
     cb4.state = .open_ ∧
     (cb4.canExecute c).2 = false ∧ (cb4.canExecute c).1.state = .open_ ∧
     (cb4.canExecute h).2 = true ∧ (cb4.canExecute h).1.state = .halfOpen ∧
     (let cbH := (cb4.canExecute h).1
      ((cbH.recordSuccess s1).recordSuccess s2).state = .closed ∧
      ((cbH.recordSuccess s1).recordSuccess s2).records = [] ∧
      (cbH.recordSuccess s1).state = .halfOpen ∧
      ((cbH.recordSuccess s1).recordFailure g).state = .open_ ∧
      (cbH.recordFailure g).state = .open_)) := by
  have e4 := breaker_four_failures_open f1 f2 f3 f4 h12 h23 h34 hw
  show _ ∧ _
  rw [e4]
  have hcneg : ¬ ((200:ℤ) ≤ (c:ℤ) - (f4:ℤ)) := by omega
  have hhpos : ((200:ℤ) ≤ (h:ℤ) - (f4:ℤ)) := by omega
  refine ⟨rfl, ?_, ?_, ?_, ?_, ?_, ?_, ?_, ?_, ?_⟩
  · simp [CircuitBreaker.canExecute, CircuitBreaker.pruneOldRecords, hcneg]
  · simp [CircuitBreaker.canExecute, CircuitBreaker.pruneOldRecords, hcneg]
  · simp [CircuitBreaker.canExecute, CircuitBreaker.pruneOldRecords, hhpos,
      CircuitBreaker.transitionTo]
  · simp [CircuitBreaker.canExecute, CircuitBreaker.pruneOldRecords, hhpos,
      CircuitBreaker.transitionTo]
  · exact (breaker_halfOpen_transitions _ (by simp [CircuitBreaker.canExecute,
      CircuitBreaker.pruneOldRecords, hhpos, CircuitBreaker.transitionTo])
      (by simp [CircuitBreaker.canExecute, CircuitBreaker.pruneOldRecords, hhpos,
        CircuitBreaker.transitionTo])
      (by simp [CircuitBreaker.canExecute, CircuitBreaker.pruneOldRecords, hhpos,
        CircuitBreaker.transitionTo]) s1 s2 g).1
  · exact (breaker_halfOpen_transitions _ (by simp [CircuitBreaker.canExecute,
      CircuitBreaker.pruneOldRecords, hhpos, CircuitBreaker.transitionTo])
      (by simp [CircuitBreaker.canExecute, CircuitBreaker.pruneOldRecords, hhpos,
        CircuitBreaker.transitionTo])
      (by simp [CircuitBreaker.canExecute, CircuitBreaker.pruneOldRecords, hhpos,
        CircuitBreaker.transitionTo]) s1 s2 g).2.1
  · exact (breaker_halfOpen_transitions _ (by simp [CircuitBreaker.canExecute,
      CircuitBreaker.pruneOldRecords, hhpos, CircuitBreaker.transitionTo])
      (by simp [CircuitBreaker.canExecute, CircuitBreaker.pruneOldRecords, hhpos,
        CircuitBreaker.transitionTo])
      (by simp [CircuitBreaker.canExecute, CircuitBreaker.pruneOldRecords, hhpos,
        CircuitBreaker.transitionTo]) s1 s2 g).2.2.1
  · exact (breaker_halfOpen_transitions _ (by simp [CircuitBreaker.canExecute,
      CircuitBreaker.pruneOldRecords, hhpos, CircuitBreaker.transitionTo])
      (by simp [CircuitBreaker.canExecute, CircuitBreaker.pruneOldRecords, hhpos,
        CircuitBreaker.transitionTo])
      (by simp [CircuitBreaker.canExecute, CircuitBreaker.pruneOldRecords, hhpos,
        CircuitBreaker.transitionTo]) s1 s2 g).2.2.2.1
  · exact (breaker_halfOpen_transitions _ (by simp [CircuitBreaker.canExecute,
      CircuitBreaker.pruneOldRecords, hhpos, CircuitBreaker.transitionTo])
      (by simp [CircuitBreaker.canExecute, CircuitBreaker.pruneOldRecords, hhpos,
        CircuitBreaker.transitionTo])
      (by simp [CircuitBreaker.canExecute, CircuitBreaker.pruneOldRecords, hhpos,
        CircuitBreaker.transitionTo]) s1 s2 g).2.2.2.2

theorem C7_circuit_breaker_witness :
    (let cb4 := (((breakerScenario.recordFailure 0).recordFailure 0).recordFailure
        0).recordFailure 0
     cb4.state = .open_ ∧
     (cb4.canExecute 100).2 = false ∧ (cb4.canExecute 100).1.state = .open_ ∧
     (cb4.canExecute 200).2 = true ∧ (cb4.canExecute 200).1.state = .halfOpen ∧
     (let cbH := (cb4.canExecute 200).1
      ((cbH.recordSuccess 201).recordSuccess 202).state = .closed ∧
      ((cbH.recordSuccess 201).recordSuccess 202).records = [] ∧
      (cbH.recordSuccess 201).state = .halfOpen ∧
      ((cbH.recordSuccess 201).recordFailure 203).state = .open_ ∧
      (cbH.recordFailure 203).state = .open_)) :=
  C7_circuit_breaker 0 0 0 0 100 200 201 202 203 (by decide) (by decide) (by decide)
    (by decide) (by decide) (by decide)

/-- C8: with `jitter = 0`, `calculateDelay(n)` is exactly
`min(maxDelayMs, baseDelayMs * 2^n)` for every attempt `n` and every value of
the random draw: the jitter term vanishes and `Math.round` is the identity on
the capped integer delay. -/
theorem C8_backoff_determinism (opts : BackoffOptions) (n : Nat) (rand : ℚ)
    (hj : opts.jitter = 0) :
    ExponentialBackoff.calculateDelay opts n rand =
      ((min opts.maxDelayMs (opts.baseDelayMs * 2 ^ n) : Nat) : ℤ) := by
  simp only [ExponentialBackoff.calculateDelay, hj, mul_zero, zero_mul, add_zero,
    round_natCast]
  rw [Nat.min_comm]

theorem C8_backoff_determinism_witness :
    backoffOpts0.jitter = 0 ∧
    ExponentialBackoff.calculateDelay backoffOpts0 6 (1/3) =
      ((min backoffOpts0.maxDelayMs (backoffOpts0.baseDelayMs * 2 ^ 6) : Nat) : ℤ) ∧
    ((min backoffOpts0.maxDelayMs (backoffOpts0.baseDelayMs * 2 ^ 6) : Nat) : ℤ) =
      30000 :=
  ⟨rfl, C8_backoff_determinism backoffOpts0 6 (1/3) rfl, by decide⟩

/-- C9: registering the same descriptor twice leaves the registry with the
same `stats()` as registering it once; the record returned by (and stored
after) the second call equals the first one with only `lastHeartbeat` updated
to the second call's time, and its status is `online`. -/
theorem C9_reregister_idempotent (reg : WorkerRegistry) (d : WorkerDescriptor)
    (t1 t2 : Nat) :
    ((reg.register d t1).1.register d t2).1.stats = (reg.register d t1).1.stats ∧
    ((reg.register d t1).1.register d t2).2 =
      { (reg.register d t1).2 with lastHeartbeat := t2 } ∧
    ((reg.register d t1).1.register d t2).2.status = .online ∧
    ((reg.register d t1).1.register d t2).1.get d.id =
      some { (reg.register d t1).2 with lastHeartbeat := t2 } := by
  have h1 := register_workers_eq reg d t1
  have h2 := register_workers_eq (reg.register d t1).1 d t2
  have hopt : ∀ (r : WorkerRegistry) (d1 : WorkerDescriptor) (t : Nat),
      (r.register d1 t).1 = { r with workers := (r.register d1 t).1.workers } := by
    intro r d1 t
    cases hfind : mapFind r.workers d1.id <;> simp [WorkerRegistry.register, hfind]
  have hfind1 : mapFind (reg.register d t1).1.workers d.id = some (d.assemble t1) := by
    rw [h1.1]
    exact mapFind_mapSet_self _ _ _
  refine ⟨?_, ?_, ?_, ?_⟩
  · rw [hopt (reg.register d t1).1 d t2, h2.1]
    exact stats_set_congr hfind1 rfl rfl rfl
  · rw [h2.2, h1.2]
    rfl
  · rw [h2.2]
    rfl
  · rw [WorkerRegistry.get, h2.1, mapFind_mapSet_self, h1.2]
    rfl

/-- C10: (1) membership in `getAvailable()` with a nonnegative `currentLoad`
forces `currentLoad < maxLoad`, hence `maxLoad ≥ 1`, so the load fraction
`currentLoad / maxLoad` used by least-loaded selection is a well-defined
rational in `[0, 1)` (no division by zero); (2) `route()` over a non-empty
eligible set always selects a worker, whatever the strategy. -/
theorem C10_router_safety :
    (∀ (reg : WorkerRegistry) (w : WorkerInfo), w ∈ reg.getAvailable →
      0 ≤ w.currentLoad →
      w.currentLoad < w.maxLoad ∧ 1 ≤ w.maxLoad ∧ w.maxLoad ≠ 0 ∧
      0 ≤ loadFraction w ∧ loadFraction w < 1) ∧
    (∀ (router : TaskRouter) (task : Task) (reg : WorkerRegistry) (rand : Nat),
      TaskRouter.getEligibleWorkers task reg ≠ [] →
      ∃ asg router1, router.route task reg rand = (some asg, router1)) := by
  constructor
  · intro reg w hw hnn
    simp only [WorkerRegistry.getAvailable] at hw
    have hf := (List.mem_filter.mp hw).2
    simp only [Bool.and_eq_true, decide_eq_true_eq] at hf
    have hlt : w.currentLoad < w.maxLoad := hf.2
    have hmaxpos : (0 : ℚ) < (w.maxLoad : ℚ) := by
      exact_mod_cast (by omega : (0:ℤ) < w.maxLoad)
    refine ⟨hlt, by omega, by omega, ?_, ?_⟩
    · exact div_nonneg (by exact_mod_cast hnn) (le_of_lt hmaxpos)
    · rw [loadFraction, div_lt_one hmaxpos]
      exact_mod_cast hlt
  · intro router task reg rand hne
    exact route_isSome rand hne

theorem C10_router_safety_witness :
    ((workerW1.assemble 0).currentLoad < (workerW1.assemble 0).maxLoad ∧
      1 ≤ (workerW1.assemble 0).maxLoad ∧ (workerW1.assemble 0).maxLoad ≠ 0 ∧
      0 ≤ loadFraction (workerW1.assemble 0) ∧
      loadFraction (workerW1.assemble 0) < 1) ∧
    (∃ asg router1, c6Router.route c6Task c6Registry 0 = (some asg, router1)) :=
  ⟨C10_router_safety.1 c6Registry (workerW1.assemble 0) (by decide) (by decide),
   C10_router_safety.2 c6Router c6Task c6Registry 0 (by decide)⟩

end Openbot
